import Mathlib

/-!
Verification of the task-management service core: a shallow embedding of
the authentication / session subsystem (`apps/api/src/services/auth.service.ts`),
the group-membership authority (`apps/api/src/services/group.service.ts`) and
the task lifecycle engine (the task service file), with theorems about
refresh-token rotation, reuse detection, the task state machine, and the
enumeration-resistance behaviour of the recovery endpoints.

Modelling conventions:
* Database rows are Lean structures; tables are lists inside a `DB` record.
  Generated ids (cuid/uuid/autoincrement, and the random bytes behind opaque
  tokens) are drawn from a single fresh counter `DB.nextId`.
* SHA-256 (`hashToken`) is collision-free on the tokens the service ever
  hashes, so a stored `tokenHash` is modelled as the hashed value itself:
  `Option RefreshJwt` for refresh-token rows (`none` is the `""` placeholder
  written by `createTokenPair` before the real hash), and a `Nat` for the
  opaque verification / password-reset tokens.
* A signed refresh JWT is modelled by its claims (`sub`, `tokenId`, `family`)
  plus its `exp`; `verifyRefreshToken` succeeds exactly on unexpired signed
  values, failing on `malformed` ones, as `jwt.verify` does.
* `argon2`-style password hashing and verification are abstracted as the
  `hashPassword` / `verifyPassword` functions of the ambient `Config`
  (login additionally takes the verifier as an explicit parameter so that
  theorems can state independence from it).
* Logging, audit records and the fire-and-forget email queue are the
  excluded collaborators of the spec and are not part of the state.
* Timestamps are abstract `Nat` ticks (the source works in milliseconds,
  so TTL constants keep their `* 1000` factors).
-/

namespace TaskMgmt

/-- The {code, message, statusCode} triple carried by the source's
`AuthError` / `TaskError` / `GroupError` exception classes. -/
structure Err where
  code : String
  message : String
  statusCode : Nat
deriving DecidableEq

inductive UserStatus where
  | UNVERIFIED
  | ACTIVE
  | SUSPENDED
deriving DecidableEq

/-- A row of the `User` table. -/
structure UserRec where
  id : Nat
  email : String
  passwordHash : Option String
  name : String
  status : UserStatus
  createdAt : Nat
  deletedAt : Option Nat
deriving DecidableEq

/-- The claims of a signed refresh JWT (`RefreshTokenClaims` in `lib/jwt.ts`),
together with its `exp`. -/
structure RefreshClaims where
  sub : Nat
  tokenId : Nat
  family : Nat
  exp : Nat
deriving DecidableEq

/-- A refresh-token bearer string: either a correctly signed JWT, or any
other string (wrong signature / not a JWT), which `verifyRefreshToken`
rejects. -/
inductive RefreshJwt where
  | signed (claims : RefreshClaims)
  | malformed (blob : Nat)
deriving DecidableEq

/-- `jwt.verify` on a refresh token: signature must be genuine and the token
unexpired; on failure the caller sees an exception (here: `none`). -/
def verifyRefreshToken (now : Nat) : RefreshJwt → Option RefreshClaims
  | .signed c => if now < c.exp then some c else none
  | .malformed _ => none

/-- A signed access JWT (`signAccessToken` output, by its claims). -/
structure AccessToken where
  sub : Nat
  email : String
  status : UserStatus
deriving DecidableEq

/-- A row of the `RefreshToken` table.  `tokenHash = none` models the `""`
placeholder `createTokenPair` writes before updating it with the real hash. -/
structure RefreshTokenRec where
  id : Nat
  tokenHash : Option RefreshJwt
  userId : Nat
  family : Nat
  revoked : Bool
  expiresAt : Nat
deriving DecidableEq

/-- A row of the `VerificationToken` / `PasswordResetToken` tables (both have
the same shape).  `tokenHash` is the (collision-free) hash of the opaque
random token, identified with the raw token value. -/
structure OpaqueTokenRec where
  id : Nat
  tokenHash : Nat
  userId : Nat
  expiresAt : Nat
deriving DecidableEq

inductive GroupRole where
  | ADMIN
  | MEMBER
deriving DecidableEq

/-- A row of the `GroupMember` table (joinedAt elided). -/
structure GroupMemberRec where
  userId : Nat
  groupId : Nat
  role : GroupRole
deriving DecidableEq

inductive TaskStatus where
  | PENDING_ACCEPTANCE
  | OPEN
  | IN_PROGRESS
  | COMPLETED
  | CLOSED
deriving DecidableEq

def TaskStatus.label : TaskStatus → String
  | .PENDING_ACCEPTANCE => "PENDING_ACCEPTANCE"
  | .OPEN => "OPEN"
  | .IN_PROGRESS => "IN_PROGRESS"
  | .COMPLETED => "COMPLETED"
  | .CLOSED => "CLOSED"

/-- A row of the `Task` table. -/
structure TaskRec where
  id : Nat
  title : String
  description : Option String
  status : TaskStatus
  groupId : Nat
  createdById : Nat
  assigneeId : Option Nat
  acceptedAt : Option Nat
  createdAt : Nat
  updatedAt : Nat
  deletedAt : Option Nat
deriving DecidableEq

/-- The persistent store (the Prisma-managed tables the core touches), plus
the fresh-value counter feeding generated ids / uuids / random tokens.
Group rows themselves are elided: the specified core only consults the
`GroupMember` table. -/
structure DB where
  users : List UserRec
  refreshTokens : List RefreshTokenRec
  verificationTokens : List OpaqueTokenRec
  passwordResetTokens : List OpaqueTokenRec
  groupMembers : List GroupMemberRec
  tasks : List TaskRec
  nextId : Nat
deriving DecidableEq

def DB.init : DB := ⟨[], [], [], [], [], [], 0⟩

/-- Ambient configuration: password hashing/verification, the refresh-token
TTL (`JWT_REFRESH_EXPIRY_SECONDS`), the feature flags consulted by the core,
and whether `NODE_ENV` is `production`. -/
structure Config where
  hashPassword : String → String
  verifyPassword : String → String → Bool
  refreshExpirySeconds : Nat
  assignmentsEnabled : Bool
  passwordResetEnabled : Bool
  production : Bool

/-- The token pair returned by login / refresh. -/
structure AuthTokens where
  accessToken : AccessToken
  refreshToken : RefreshJwt
deriving DecidableEq

-- ─── Error values thrown by the services ─────────────────────

def invalidCredentialsErr : Err := ⟨"INVALID_CREDENTIALS", "Invalid email or password", 401⟩
def accountDeletedErr : Err := ⟨"ACCOUNT_DELETED", "This account has been deactivated", 401⟩
def accountSuspendedErr : Err := ⟨"ACCOUNT_SUSPENDED", "This account has been suspended", 403⟩
def emailExistsErr : Err := ⟨"EMAIL_EXISTS", "A user with this email already exists", 409⟩
def invalidRefreshTokenErr : Err := ⟨"INVALID_TOKEN", "Invalid refresh token", 401⟩
def tokenReuseErr : Err := ⟨"TOKEN_REUSE", "Refresh token has been revoked", 401⟩
def refreshTokenExpiredErr : Err := ⟨"TOKEN_EXPIRED", "Refresh token has expired", 401⟩
def refreshUserNotFoundErr : Err := ⟨"USER_NOT_FOUND", "User not found", 401⟩
def invalidVerificationTokenErr : Err := ⟨"INVALID_TOKEN", "Invalid or expired verification token", 400⟩
def verificationTokenExpiredErr : Err := ⟨"TOKEN_EXPIRED", "Verification token has expired", 400⟩
def invalidResetTokenErr : Err := ⟨"INVALID_TOKEN", "Invalid or expired reset token", 400⟩
def resetTokenExpiredErr : Err := ⟨"TOKEN_EXPIRED", "Reset token has expired", 400⟩
def notAMemberErr : Err := ⟨"NOT_A_MEMBER", "You are not a member of this group", 403⟩
def notAdminErr : Err := ⟨"NOT_ADMIN", "Admin access required for this group", 403⟩
def removeNotAMemberErr : Err := ⟨"NOT_A_MEMBER", "User is not a member of this group", 404⟩
def alreadyMemberErr : Err := ⟨"ALREADY_MEMBER", "User is already a member of this group", 409⟩
def lastAdminErr : Err := ⟨"LAST_ADMIN", "Cannot remove the last admin from the group", 400⟩
def targetUserNotFoundErr : Err := ⟨"USER_NOT_FOUND", "Target user not found", 404⟩
def taskNotFoundErr : Err := ⟨"TASK_NOT_FOUND", "Task not found", 404⟩
def featureDisabledErr : Err := ⟨"FEATURE_DISABLED", "Task assignments are currently disabled", 400⟩
def acceptForbiddenErr : Err := ⟨"FORBIDDEN", "Only the assigned user can accept this task", 403⟩
def assignForbiddenErr : Err := ⟨"FORBIDDEN", "Only the task creator can assign this task", 403⟩
def updateForbiddenErr : Err := ⟨"FORBIDDEN", "Only the task creator can update this task", 403⟩
def deleteForbiddenErr : Err := ⟨"FORBIDDEN", "Only the task creator can delete this task", 403⟩
def invalidStateErr : Err := ⟨"INVALID_STATE", "Task is not pending acceptance", 400⟩

def invalidTransitionErr (f t : TaskStatus) : Err :=
  ⟨"INVALID_TRANSITION", "Cannot transition from " ++ f.label ++ " to " ++ t.label, 400⟩

-- ─── Auth service (auth.service.ts) ──────────────────────────

/-- `createTokenPair`: sign an access token; create the refresh row with a
placeholder hash (to obtain its generated id), sign the refresh JWT embedding
that id, then store the JWT's hash on the row.  A fresh `randomUUID` family
is drawn when none is supplied. -/
def createTokenPair (cfg : Config) (db : DB) (userId : Nat) (email : String)
    (status : UserStatus) (famOpt : Option Nat) (now : Nat) : AuthTokens × DB :=
  let famAndDb : Nat × DB :=
    match famOpt with
    | some f => (f, db)
    | none => (db.nextId, { db with nextId := db.nextId + 1 })
  let tokenFamily := famAndDb.1
  let db1 := famAndDb.2
  let accessToken : AccessToken := ⟨userId, email, status⟩
  let recId := db1.nextId
  let expiry := now + cfg.refreshExpirySeconds * 1000
  let db2 := { db1 with
    nextId := recId + 1,
    refreshTokens := db1.refreshTokens ++ [({ id := recId, tokenHash := none, userId := userId, family := tokenFamily, revoked := false, expiresAt := expiry } : RefreshTokenRec)] }
  let refreshToken := RefreshJwt.signed ⟨userId, recId, tokenFamily, expiry⟩
  let db3 := { db2 with
    refreshTokens := db2.refreshTokens.map fun (r : RefreshTokenRec) =>
      if r.id = recId then { r with tokenHash := some refreshToken } else r }
  (⟨accessToken, refreshToken⟩, db3)

/-- `registerUser`: reject duplicate emails; create the user UNVERIFIED with
a hashed password, and store a 24h verification token.  Returns the created
user and the raw verification token. -/
def registerUser (cfg : Config) (db : DB) (email password name : String)
    (now : Nat) : (Except Err (UserRec × Nat)) × DB :=
  if db.users.any (fun u => u.email == email) then
    (.error emailExistsErr, db)
  else
    let verificationRaw := db.nextId
    let db1 := { db with nextId := db.nextId + 1 }
    let userId := db1.nextId
    let user : UserRec :=
      ⟨userId, email, some (cfg.hashPassword password), name, .UNVERIFIED, now, none⟩
    let db2 := { db1 with nextId := userId + 1, users := db1.users ++ [user] }
    let vtokId := db2.nextId
    let db3 := { db2 with
      nextId := vtokId + 1,
      verificationTokens := db2.verificationTokens ++
        [⟨vtokId, verificationRaw, userId, now + 24 * 60 * 60 * 1000⟩] }
    (.ok (user, verificationRaw), db3)

/-- `loginUser`: find by email; missing user or missing password hash give
the generic invalid-credentials error; then soft-deleted, then SUSPENDED are
rejected; only then is the password verified (the verifier `vp` is passed
explicitly); on success a token pair in a brand-new family is created. -/
def loginUser (vp : String → String → Bool) (cfg : Config) (db : DB)
    (email password : String) (now : Nat) :
    (Except Err (AuthTokens × UserRec)) × DB :=
  match db.users.find? (fun u => u.email == email) with
  | none => (.error invalidCredentialsErr, db)
  | some user =>
    match user.passwordHash with
    | none => (.error invalidCredentialsErr, db)
    | some ph =>
      if user.deletedAt.isSome then
        (.error accountDeletedErr, db)
      else if user.status = .SUSPENDED then
        (.error accountSuspendedErr, db)
      else if vp ph password then
        let pair := createTokenPair cfg db user.id user.email user.status none now
        (.ok (pair.1, user), pair.2)
      else
        (.error invalidCredentialsErr, db)

/-- Revoke every refresh token of a family (`updateMany where family`). -/
def revokeFamily (db : DB) (f : Nat) : DB :=
  { db with refreshTokens := db.refreshTokens.map fun (r : RefreshTokenRec) =>
      if r.family = f then { r with revoked := true } else r }

/-- `refreshTokens`: verify the JWT; look the hash up (scoped to the claimed
subject); a missing or already-revoked row revokes the whole family and
fails as reuse; an expired row fails; otherwise the presented row is revoked,
the user re-read (missing / soft-deleted users fail), and a new pair is
issued in the same family. -/
def refreshTokens (cfg : Config) (db : DB) (raw : RefreshJwt) (now : Nat) :
    (Except Err AuthTokens) × DB :=
  match verifyRefreshToken now raw with
  | none => (.error invalidRefreshTokenErr, db)
  | some claims =>
    match db.refreshTokens.find?
        (fun r => r.tokenHash == some raw && r.userId == claims.sub) with
    | none =>
      (.error tokenReuseErr, revokeFamily db claims.family)
    | some storedToken =>
      if storedToken.revoked then
        (.error tokenReuseErr, revokeFamily db claims.family)
      else if storedToken.expiresAt < now then
        (.error refreshTokenExpiredErr, db)
      else
        let db1 := { db with refreshTokens := db.refreshTokens.map fun (r : RefreshTokenRec) =>
          if r.id = storedToken.id then { r with revoked := true } else r }
        match db1.users.find? (fun u => u.id == claims.sub) with
        | none => (.error refreshUserNotFoundErr, db1)
        | some user =>
          if user.deletedAt.isSome then
            (.error refreshUserNotFoundErr, db1)
          else
            let pair := createTokenPair cfg db1 user.id user.email user.status
              (some claims.family) now
            (.ok pair.1, pair.2)

/-- `logoutUser`: best-effort — with no token it is a no-op; with one, the
matching row's whole family is revoked (no signature verification). -/
def logoutUser (db : DB) (raw : Option RefreshJwt) (userId : Nat) : DB :=
  match raw with
  | none => db
  | some t =>
    match db.refreshTokens.find?
        (fun r => r.tokenHash == some t && r.userId == userId) with
    | none => db
    | some storedToken => revokeFamily db storedToken.family

/-- `verifyEmail`: unknown token fails; an expired token is deleted and
fails; otherwise a transaction sets the user ACTIVE and consumes the token. -/
def verifyEmail (db : DB) (raw : Nat) (now : Nat) : (Except Err Unit) × DB :=
  match db.verificationTokens.find? (fun t => t.tokenHash == raw) with
  | none => (.error invalidVerificationTokenErr, db)
  | some stored =>
    if stored.expiresAt < now then
      (.error verificationTokenExpiredErr,
        { db with verificationTokens :=
            db.verificationTokens.filter fun t => t.id != stored.id })
    else
      (.ok (),
        { db with
          users := db.users.map fun (u : UserRec) =>
            if u.id = stored.userId then { u with status := .ACTIVE } else u,
          verificationTokens :=
            db.verificationTokens.filter fun t => t.id != stored.id })

/-- `resendVerification`: silently a no-op unless the email belongs to an
UNVERIFIED user; otherwise replaces that user's verification tokens with a
fresh 24h one and returns its raw value. -/
def resendVerification (db : DB) (email : String) (now : Nat) :
    Option Nat × DB :=
  match db.users.find? (fun u => u.email == email) with
  | none => (none, db)
  | some user =>
    if user.status ≠ .UNVERIFIED then
      (none, db)
    else
      let db1 := { db with verificationTokens :=
        db.verificationTokens.filter fun t => t.userId != user.id }
      let raw := db1.nextId
      let db2 := { db1 with nextId := raw + 1 }
      let tokId := db2.nextId
      let db3 := { db2 with
        nextId := tokId + 1,
        verificationTokens := db2.verificationTokens ++
          [⟨tokId, raw, user.id, now + 24 * 60 * 60 * 1000⟩] }
      (some raw, db3)

/-- `requestPasswordReset`: silently a no-op unless the email belongs to a
non-deleted user; otherwise replaces that user's reset tokens with a fresh
15-minute one and returns its raw value. -/
def requestPasswordReset (db : DB) (email : String) (now : Nat) :
    Option Nat × DB :=
  match db.users.find? (fun u => u.email == email) with
  | none => (none, db)
  | some user =>
    if user.deletedAt.isSome then
      (none, db)
    else
      let db1 := { db with passwordResetTokens :=
        db.passwordResetTokens.filter fun t => t.userId != user.id }
      let raw := db1.nextId
      let db2 := { db1 with nextId := raw + 1 }
      let tokId := db2.nextId
      let db3 := { db2 with
        nextId := tokId + 1,
        passwordResetTokens := db2.passwordResetTokens ++
          [⟨tokId, raw, user.id, now + 15 * 60 * 1000⟩] }
      (some raw, db3)

/-- `resetPassword`: unknown token fails; an expired token is deleted and
fails; otherwise a transaction updates the password hash, consumes the
token, and revokes every refresh token of the user. -/
def resetPassword (cfg : Config) (db : DB) (raw : Nat) (newPassword : String)
    (now : Nat) : (Except Err Unit) × DB :=
  match db.passwordResetTokens.find? (fun t => t.tokenHash == raw) with
  | none => (.error invalidResetTokenErr, db)
  | some stored =>
    if stored.expiresAt < now then
      (.error resetTokenExpiredErr,
        { db with passwordResetTokens :=
            db.passwordResetTokens.filter fun t => t.id != stored.id })
    else
      (.ok (),
        { db with
          users := db.users.map fun (u : UserRec) =>
            if u.id = stored.userId then
              { u with passwordHash := some (cfg.hashPassword newPassword) }
            else u,
          passwordResetTokens :=
            db.passwordResetTokens.filter fun t => t.id != stored.id,
          refreshTokens := db.refreshTokens.map fun (r : RefreshTokenRec) =>
            if r.userId = stored.userId then { r with revoked := true } else r })

-- ─── Recovery route handlers (auth routes file) ──────────────

/-- The caller-visible response of the recovery endpoints: HTTP status, the
fixed message, and the token echoed back only outside production. -/
structure MessageResponse where
  status : Nat
  message : String
  devToken : Option Nat
deriving DecidableEq

/-- `POST /api/v1/auth/resend-verification`: always answers 200 with the
fixed message; the raw token is added to the payload only when
`NODE_ENV` is not `production` and a token was issued. -/
def resendVerificationRoute (cfg : Config) (db : DB) (email : String)
    (now : Nat) : MessageResponse × DB :=
  let r := resendVerification db email now
  (⟨200, "If an unverified account exists, a verification email has been sent.",
    if cfg.production then none else r.1⟩, r.2)

/-- `POST /api/v1/auth/forgot-password`: rejected wholesale when the
password-reset feature flag is off; otherwise always answers 200 with the
fixed message (dev-only token echo as above). -/
def forgotPasswordRoute (cfg : Config) (db : DB) (email : String)
    (now : Nat) : MessageResponse × DB :=
  if !cfg.passwordResetEnabled then
    (⟨400, "Password reset is currently disabled", none⟩, db)
  else
    let r := requestPasswordReset db email now
    (⟨200, "If an account exists, a password reset link has been sent.",
      if cfg.production then none else r.1⟩, r.2)

-- ─── Group service (group.service.ts) ────────────────────────

/-- `prisma.groupMember.findUnique` on the (userId, groupId) key. -/
def findMembership (db : DB) (groupId userId : Nat) : Option GroupMemberRec :=
  db.groupMembers.find? fun m => m.userId == userId && m.groupId == groupId

/-- `assertGroupMember`: 403 `NOT_A_MEMBER` when no membership row exists. -/
def assertGroupMember (db : DB) (groupId userId : Nat) : Except Err Unit :=
  match findMembership db groupId userId with
  | none => .error notAMemberErr
  | some _ => .ok ()

/-- `assertGroupAdmin`: 403 `NOT_ADMIN` when membership is missing or the
role is not ADMIN. -/
def assertGroupAdmin (db : DB) (groupId userId : Nat) : Except Err Unit :=
  match findMembership db groupId userId with
  | none => .error notAdminErr
  | some m => if m.role = .ADMIN then .ok () else .error notAdminErr

/-- `createGroup`: the creator becomes the ADMIN member of a fresh group.
Returns the new group id.  (The group row's name/description are outside the
specified core; only the membership row matters here.) -/
def createGroup (db : DB) (userId : Nat) : Nat × DB :=
  let groupId := db.nextId
  (groupId, { db with
    nextId := groupId + 1,
    groupMembers := db.groupMembers ++
      [({ userId := userId, groupId := groupId, role := .ADMIN } : GroupMemberRec)] })

/-- `addMember`: acting user must be an admin; target must exist and not be
soft-deleted; duplicates are rejected; otherwise the membership row is
inserted with the requested role. -/
def addMember (db : DB) (groupId targetUserId : Nat) (role : GroupRole)
    (actingUserId : Nat) : (Except Err Unit) × DB :=
  match assertGroupAdmin db groupId actingUserId with
  | .error e => (.error e, db)
  | .ok _ =>
    match db.users.find? (fun u => u.id == targetUserId) with
    | none => (.error targetUserNotFoundErr, db)
    | some target =>
      if target.deletedAt.isSome then
        (.error targetUserNotFoundErr, db)
      else
        match findMembership db groupId targetUserId with
        | some _ => (.error alreadyMemberErr, db)
        | none =>
          (.ok (), { db with groupMembers := db.groupMembers ++
            [({ userId := targetUserId, groupId := groupId, role := role } :
              GroupMemberRec)] })

/-- `removeMember`: acting user must be an admin; the target must be a
member; removing an ADMIN is refused when the group's ADMIN row count is
already ≤ 1 (checked before the delete); otherwise the row is deleted. -/
def removeMember (db : DB) (groupId targetUserId actingUserId : Nat) :
    (Except Err Unit) × DB :=
  match assertGroupAdmin db groupId actingUserId with
  | .error e => (.error e, db)
  | .ok _ =>
    match findMembership db groupId targetUserId with
    | none => (.error removeNotAMemberErr, db)
    | some membership =>
      let adminGuard : Except Err Unit :=
        if membership.role = .ADMIN then
          let adminCount := (db.groupMembers.filter fun m =>
            m.groupId == groupId && m.role == GroupRole.ADMIN).length
          if adminCount ≤ 1 then .error lastAdminErr else .ok ()
        else .ok ()
      match adminGuard with
      | .error e => (.error e, db)
      | .ok _ =>
        (.ok (), { db with groupMembers := db.groupMembers.filter fun m =>
          !(m.userId == targetUserId && m.groupId == groupId) })

-- ─── Task service (task service file) ────────────────────────

/-- The transition table of the task state machine. -/
def VALID_TRANSITIONS : TaskStatus → List TaskStatus
  | .PENDING_ACCEPTANCE => [.OPEN, .CLOSED]
  | .OPEN => [.IN_PROGRESS, .CLOSED]
  | .IN_PROGRESS => [.COMPLETED, .OPEN, .CLOSED]
  | .COMPLETED => [.CLOSED]
  | .CLOSED => []

/-- `isValidTransition`: pure lookup in the table. -/
def isValidTransition (f t : TaskStatus) : Bool :=
  (VALID_TRANSITIONS f).contains t

/-- `getTaskById`: non-deleted task looked up by id, then the caller's
membership of the task's group is asserted. -/
def getTaskById (db : DB) (taskId userId : Nat) : Except Err TaskRec :=
  match db.tasks.find? (fun t => t.id == taskId && t.deletedAt == none) with
  | none => .error taskNotFoundErr
  | some task =>
    match assertGroupMember db task.groupId userId with
    | .error e => .error e
    | .ok _ => .ok task

/-- `createTask`: creator must be a group member; an assignee requires the
assignments feature flag and must also be a group member, making the initial
status PENDING_ACCEPTANCE instead of OPEN. -/
def createTask (cfg : Config) (db : DB) (title : String)
    (description : Option String) (groupId : Nat) (assigneeId : Option Nat)
    (userId now : Nat) : (Except Err TaskRec) × DB :=
  match assertGroupMember db groupId userId with
  | .error e => (.error e, db)
  | .ok _ =>
    let statusGate : Except Err TaskStatus :=
      match assigneeId with
      | none => .ok .OPEN
      | some aid =>
        if !cfg.assignmentsEnabled then .error featureDisabledErr
        else
          match assertGroupMember db groupId aid with
          | .error e => .error e
          | .ok _ => .ok .PENDING_ACCEPTANCE
    match statusGate with
    | .error e => (.error e, db)
    | .ok initialStatus =>
      let task : TaskRec :=
        { id := db.nextId, title := title, description := description,
          status := initialStatus, groupId := groupId, createdById := userId,
          assigneeId := assigneeId, acceptedAt := none, createdAt := now,
          updatedAt := now, deletedAt := none }
      (.ok task, { db with nextId := db.nextId + 1, tasks := db.tasks ++ [task] })

/-- `updateTask` (title/description): creator-only metadata update. -/
def updateTask (db : DB) (taskId : Nat) (titleOpt descOpt : Option String)
    (userId now : Nat) : (Except Err TaskRec) × DB :=
  match getTaskById db taskId userId with
  | .error e => (.error e, db)
  | .ok task =>
    if task.createdById ≠ userId then
      (.error updateForbiddenErr, db)
    else
      let updated := { task with
        title := titleOpt.getD task.title,
        description := match descOpt with
          | some d => some d
          | none => task.description,
        updatedAt := now }
      (.ok updated, { db with tasks := db.tasks.map fun t =>
        if t.id = taskId then updated else t })

/-- `updateTaskStatus`: any group member may drive a structurally valid
transition; anything outside the table fails with `INVALID_TRANSITION`. -/
def updateTaskStatus (db : DB) (taskId : Nat) (newStatus : TaskStatus)
    (userId now : Nat) : (Except Err TaskRec) × DB :=
  match getTaskById db taskId userId with
  | .error e => (.error e, db)
  | .ok task =>
    if !isValidTransition task.status newStatus then
      (.error (invalidTransitionErr task.status newStatus), db)
    else
      let updated := { task with status := newStatus, updatedAt := now }
      (.ok updated, { db with tasks := db.tasks.map fun t =>
        if t.id = taskId then updated else t })

/-- `acceptTask`: only the current assignee, only in PENDING_ACCEPTANCE;
moves the task to OPEN and stamps `acceptedAt`. -/
def acceptTask (db : DB) (taskId userId now : Nat) :
    (Except Err TaskRec) × DB :=
  match getTaskById db taskId userId with
  | .error e => (.error e, db)
  | .ok task =>
    if task.assigneeId ≠ some userId then
      (.error acceptForbiddenErr, db)
    else if task.status ≠ .PENDING_ACCEPTANCE then
      (.error invalidStateErr, db)
    else
      let updated := { task with
        status := .OPEN, acceptedAt := some now, updatedAt := now }
      (.ok updated, { db with tasks := db.tasks.map fun t =>
        if t.id = taskId then updated else t })

/-- `assignTask`: feature-gated; creator-only; the new assignee must be a
group member; forces PENDING_ACCEPTANCE and clears `acceptedAt`. -/
def assignTask (cfg : Config) (db : DB) (taskId assigneeId userId now : Nat) :
    (Except Err TaskRec) × DB :=
  if !cfg.assignmentsEnabled then
    (.error featureDisabledErr, db)
  else
    match getTaskById db taskId userId with
    | .error e => (.error e, db)
    | .ok task =>
      if task.createdById ≠ userId then
        (.error assignForbiddenErr, db)
      else
        match assertGroupMember db task.groupId assigneeId with
        | .error e => (.error e, db)
        | .ok _ =>
          let updated := { task with
            assigneeId := some assigneeId, status := .PENDING_ACCEPTANCE,
            acceptedAt := none, updatedAt := now }
          (.ok updated, { db with tasks := db.tasks.map fun t =>
            if t.id = taskId then updated else t })

/-- `deleteTask`: creator-only soft delete (stamps `deletedAt`). -/
def deleteTask (db : DB) (taskId userId now : Nat) :
    (Except Err Unit) × DB :=
  match getTaskById db taskId userId with
  | .error e => (.error e, db)
  | .ok task =>
    if task.createdById ≠ userId then
      (.error deleteForbiddenErr, db)
    else
      (.ok (), { db with tasks := db.tasks.map fun (t : TaskRec) =>
        if t.id = taskId then { t with deletedAt := some now } else t })

-- ─── Reachability: the operations as a transition system ─────

/-- One service call, as a relation on stores (arguments are arbitrary). -/
inductive Step (cfg : Config) : DB → DB → Prop where
  | register (db : DB) (email password name : String) (now : Nat) :
      Step cfg db (registerUser cfg db email password name now).2
  | login (db : DB) (email password : String) (now : Nat) :
      Step cfg db (loginUser cfg.verifyPassword cfg db email password now).2
  | refresh (db : DB) (raw : RefreshJwt) (now : Nat) :
      Step cfg db (refreshTokens cfg db raw now).2
  | logout (db : DB) (raw : Option RefreshJwt) (userId : Nat) :
      Step cfg db (logoutUser db raw userId)
  | verify (db : DB) (raw now : Nat) :
      Step cfg db (verifyEmail db raw now).2
  | resend (db : DB) (email : String) (now : Nat) :
      Step cfg db (resendVerification db email now).2
  | requestReset (db : DB) (email : String) (now : Nat) :
      Step cfg db (requestPasswordReset db email now).2
  | resetPwd (db : DB) (raw : Nat) (newPassword : String) (now : Nat) :
      Step cfg db (resetPassword cfg db raw newPassword now).2
  | newGroup (db : DB) (userId : Nat) :
      Step cfg db (createGroup db userId).2
  | addMem (db : DB) (groupId targetUserId : Nat) (role : GroupRole)
      (actingUserId : Nat) :
      Step cfg db (addMember db groupId targetUserId role actingUserId).2
  | removeMem (db : DB) (groupId targetUserId actingUserId : Nat) :
      Step cfg db (removeMember db groupId targetUserId actingUserId).2
  | newTask (db : DB) (title : String) (description : Option String)
      (groupId : Nat) (assigneeId : Option Nat) (userId now : Nat) :
      Step cfg db (createTask cfg db title description groupId assigneeId userId now).2
  | updTask (db : DB) (taskId : Nat) (titleOpt descOpt : Option String)
      (userId now : Nat) :
      Step cfg db (updateTask db taskId titleOpt descOpt userId now).2
  | updStatus (db : DB) (taskId : Nat) (newStatus : TaskStatus)
      (userId now : Nat) :
      Step cfg db (updateTaskStatus db taskId newStatus userId now).2
  | acceptStep (db : DB) (taskId userId now : Nat) :
      Step cfg db (acceptTask db taskId userId now).2
  | assignStep (db : DB) (taskId assigneeId userId now : Nat) :
      Step cfg db (assignTask cfg db taskId assigneeId userId now).2
  | delTask (db : DB) (taskId userId now : Nat) :
      Step cfg db (deleteTask db taskId userId now).2

/-- Stores reachable from the empty store through service calls. -/
inductive Reachable (cfg : Config) : DB → Prop where
  | init : Reachable cfg DB.init
  | step {db db' : DB} : Reachable cfg db → Step cfg db db' → Reachable cfg db'

-- ─── Refresh-token invariants ────────────────────────────────

/-- A refresh-token row that is live (non-revoked) and belongs to family `f`. -/
def liveIn (f : Nat) (r : RefreshTokenRec) : Bool :=
  !r.revoked && r.family == f

/-- No two rows of the list are both live in the same family. -/
def NoTwoLive (l : List RefreshTokenRec) : Prop :=
  l.Pairwise fun a b => a.revoked = true ∨ b.revoked = true ∨ a.family ≠ b.family

/-- A stored hash is of a JWT whose claims agree with the row it is stored
on (which is how `createTokenPair` writes rows). -/
def hashOk (r : RefreshTokenRec) : Bool :=
  match r.tokenHash with
  | some (RefreshJwt.signed c) =>
    c.sub == r.userId && c.tokenId == r.id && c.family == r.family
  | _ => true

def HashConsistent (l : List RefreshTokenRec) : Prop :=
  ∀ r ∈ l, hashOk r = true

/-- Every stored row's id and family are below the fresh counter. -/
def IdBound (db : DB) : Prop :=
  ∀ r ∈ db.refreshTokens, r.id < db.nextId ∧ r.family < db.nextId

/-- The refresh-token store invariant. -/
def Inv (db : DB) : Prop :=
  IdBound db ∧ HashConsistent db.refreshTokens ∧ NoTwoLive db.refreshTokens

-- ─── Concrete fixtures for witnesses and counterexamples ─────

/-- A concrete configuration (identity password hash, equality verifier,
the default 604800 s refresh TTL, all flags on, production mode). -/
def cfgW : Config := ⟨id, fun h p => h == p, 604800, true, true, true⟩

def userW : UserRec := ⟨0, "a@example.com", some "pw", "Alice", .ACTIVE, 0, none⟩

def rawW : RefreshJwt := .signed ⟨0, 1, 2, 1000⟩

/-- One ACTIVE user holding one live refresh token (family 2). -/
def dbW : DB := ⟨[userW], [⟨1, some rawW, 0, 2, false, 1000⟩], [], [], [], [], 3⟩

/-- A replayed token of family 2 whose row is already revoked. -/
def rawA : RefreshJwt := .signed ⟨0, 1, 2, 1000⟩

/-- One user; family 2 holds a revoked row (hash of `rawA`) and a live
successor row. -/
def dbX : DB :=
  ⟨[userW],
   [⟨1, some rawA, 0, 2, true, 1000⟩,
    ⟨2, some (.signed ⟨0, 2, 2, 1000⟩), 0, 2, false, 1000⟩],
   [], [], [], [], 3⟩

/-- A task board: group 5 has the single member 1; task 10 is OPEN,
created by user 1, unassigned. -/
def taskW : TaskRec := ⟨10, "T", none, .OPEN, 5, 1, none, none, 0, 0, none⟩

def dbT : DB := ⟨[], [], [], [], [⟨1, 5, .ADMIN⟩], [taskW], 11⟩

/-- A handshake board: group 5 has members 1 (ADMIN) and 2 (MEMBER);
task 20 is PENDING_ACCEPTANCE assigned to 1; task 22 is OPEN, previously
accepted by 1.  Both were created by user 1. -/
def taskP : TaskRec := ⟨20, "P", none, .PENDING_ACCEPTANCE, 5, 1, some 1, none, 0, 0, none⟩

def taskQ : TaskRec := ⟨22, "Q", none, .OPEN, 5, 1, some 1, some 9, 0, 0, none⟩

def dbH : DB := ⟨[], [], [], [], [⟨1, 5, .ADMIN⟩, ⟨2, 5, .MEMBER⟩], [taskP, taskQ], 23⟩

/-- Login fixtures: an ACTIVE user with a password, a SUSPENDED user, a
soft-deleted user with a password, and a soft-deleted account without a
password hash (the schema's OAuth-only shape). -/
def userS : UserRec := ⟨1, "s@example.com", some "pw", "Sam", .SUSPENDED, 0, none⟩

def userDel : UserRec := ⟨2, "del@example.com", some "pw", "Del", .ACTIVE, 0, some 3⟩

def userOauth : UserRec := ⟨3, "o@example.com", none, "Oli", .ACTIVE, 0, some 5⟩

def userU : UserRec := ⟨4, "u@example.com", some "pw", "Uma", .UNVERIFIED, 0, none⟩

def dbL : DB := ⟨[userW, userS, userDel, userOauth, userU], [], [], [], [], [], 6⟩

/-- A store with a pending password-reset token (hash 9) for user 0, who
holds live refresh tokens in two distinct families. -/
def dbR : DB :=
  ⟨[userW],
   [⟨1, none, 0, 2, false, 50⟩, ⟨2, none, 0, 3, false, 50⟩],
   [], [⟨4, 9, 0, 100⟩], [], [], 5⟩

/-- Group fixtures: group 5 with a single ADMIN (and one MEMBER), and
group 5 with two ADMINs. -/
def dbG1 : DB := ⟨[], [], [], [], [⟨1, 5, .ADMIN⟩, ⟨2, 5, .MEMBER⟩], [], 6⟩

def dbG2 : DB := ⟨[], [], [], [], [⟨1, 5, .ADMIN⟩, ⟨2, 5, .ADMIN⟩], [], 6⟩

-- ─── List helper lemmas ──────────────────────────────────────

lemma findq_map_pred {α : Type} (g : α → α) (p : α → Bool) (l : List α)
    (h : ∀ a, p (g a) = p a) :
    (l.map g).find? p = (l.find? p).map g := by
  rw [List.find?_map]
  have hpg : p ∘ g = p := funext h
  rw [hpg]

lemma filter_length_triangle {α : Type} (p q : α → Bool) (l : List α) :
    (l.filter p).length ≤
      (l.filter fun a => p a && !q a).length + (l.filter q).length := by
  induction l with
  | nil => simp
  | cons a l ih =>
    by_cases hq : q a = true
    · by_cases hp : p a = true <;>
        simp [List.filter_cons, hp, hq] <;> omega
    · have hq' : q a = false := by revert hq; cases q a <;> simp
      by_cases hp : p a = true <;>
        simp [List.filter_cons, hp, hq'] <;> omega

lemma nodup_key_filter_le_one {α β : Type} [DecidableEq β] (f : α → β)
    (l : List α) (h : (l.map f).Nodup) (k : β) :
    (l.filter fun a => f a == k).length ≤ 1 := by
  induction l with
  | nil => simp
  | cons a l ih =>
    rw [List.map_cons, List.nodup_cons] at h
    by_cases hk : f a = k
    · have hrest : (l.filter fun a => f a == k) = [] := by
        rw [List.filter_eq_nil_iff]
        intro b hb hbk
        exact h.1 (by
          rw [beq_iff_eq] at hbk
          rw [hk, ← hbk]
          exact List.mem_map_of_mem f hb)
      simp [List.filter_cons, hk, hrest]
    · have : (f a == k) = false := beq_false_of_ne hk
      simp only [List.filter_cons, this, Bool.false_eq_true, if_neg,
        reduceCtorEq, ite_false]
      exact ih h.2

/-- The pairwise form of the one-live-token-per-family invariant bounds the
per-family live count. -/
lemma noTwoLive_count {l : List RefreshTokenRec} (h : NoTwoLive l) (f : Nat) :
    (l.filter (liveIn f)).length ≤ 1 := by
  induction l with
  | nil => simp
  | cons a l ih =>
    rw [NoTwoLive, List.pairwise_cons] at h
    by_cases ha : liveIn f a = true
    · have hrest : l.filter (liveIn f) = [] := by
        rw [List.filter_eq_nil_iff]
        intro b hb hbl
        rcases h.1 b hb with h1 | h2 | h3
        · simp [liveIn, h1] at ha
        · simp [liveIn, h2] at hbl
        · simp only [liveIn, Bool.and_eq_true, beq_iff_eq] at ha hbl
          exact h3 (ha.2.trans hbl.2.symm)
      simp [List.filter_cons, ha, hrest]
    · simp only [List.filter_cons, ha, Bool.false_eq_true, if_neg,
        reduceCtorEq, ite_false]
      exact ih h.2

-- ─── Invariant preservation machinery ────────────────────────

/-- The invariant only depends on the refresh-token table and the counter:
any operation that leaves the table alone and does not decrease the counter
preserves it. -/
lemma Inv.of_eq {db db' : DB} (h : Inv db)
    (hR : db'.refreshTokens = db.refreshTokens)
    (hN : db.nextId ≤ db'.nextId) : Inv db' := by
  obtain ⟨hB, hH, hP⟩ := h
  refine ⟨?_, ?_, ?_⟩
  · intro r hr
    rw [hR] at hr
    exact ⟨lt_of_lt_of_le (hB r hr).1 hN, lt_of_lt_of_le (hB r hr).2 hN⟩
  · rw [hR]; exact hH
  · rw [hR]; exact hP

lemma revoke_update_id {p : RefreshTokenRec → Prop} [DecidablePred p]
    (r : RefreshTokenRec) :
    (if p r then { r with revoked := true } else r).id = r.id := by
  by_cases h : p r <;> simp [h]

lemma revoke_update_family {p : RefreshTokenRec → Prop} [DecidablePred p]
    (r : RefreshTokenRec) :
    (if p r then { r with revoked := true } else r).family = r.family := by
  by_cases h : p r <;> simp [h]

lemma revoke_update_userId {p : RefreshTokenRec → Prop} [DecidablePred p]
    (r : RefreshTokenRec) :
    (if p r then { r with revoked := true } else r).userId = r.userId := by
  by_cases h : p r <;> simp [h]

lemma revoke_update_tokenHash {p : RefreshTokenRec → Prop} [DecidablePred p]
    (r : RefreshTokenRec) :
    (if p r then { r with revoked := true } else r).tokenHash = r.tokenHash := by
  by_cases h : p r <;> simp [h]

lemma revoke_update_hashOk {p : RefreshTokenRec → Prop} [DecidablePred p]
    (r : RefreshTokenRec) :
    hashOk (if p r then { r with revoked := true } else r) = hashOk r := by
  by_cases h : p r <;> simp [h, hashOk]

lemma revoke_update_revoked_mono {p : RefreshTokenRec → Prop} [DecidablePred p]
    (r : RefreshTokenRec) (h : r.revoked = true) :
    (if p r then { r with revoked := true } else r).revoked = true := by
  by_cases hp : p r <;> simp [hp, h]

/-- Marking any subset of rows revoked preserves the invariant. -/
lemma inv_revokeMap {db db' : DB} (p : RefreshTokenRec → Prop) [DecidablePred p]
    (hR : db'.refreshTokens = db.refreshTokens.map fun r =>
      if p r then { r with revoked := true } else r)
    (hN : db.nextId ≤ db'.nextId) (h : Inv db) : Inv db' := by
  obtain ⟨hB, hH, hP⟩ := h
  refine ⟨?_, ?_, ?_⟩
  · intro r' hr'
    rw [hR] at hr'
    obtain ⟨r, hr, rfl⟩ := List.mem_map.mp hr'
    rw [revoke_update_id, revoke_update_family]
    exact ⟨lt_of_lt_of_le (hB r hr).1 hN, lt_of_lt_of_le (hB r hr).2 hN⟩
  · intro r' hr'
    rw [hR] at hr'
    obtain ⟨r, hr, rfl⟩ := List.mem_map.mp hr'
    rw [revoke_update_hashOk]
    exact hH r hr
  · rw [hR, NoTwoLive, List.pairwise_map]
    refine hP.imp ?_
    intro a b hab
    rcases hab with h1 | h2 | h3
    · exact Or.inl (revoke_update_revoked_mono a h1)
    · exact Or.inr (Or.inl (revoke_update_revoked_mono b h2))
    · exact Or.inr (Or.inr (by rw [revoke_update_family, revoke_update_family]; exact h3))

/-- `createTokenPair` with an explicitly supplied family, written out: one
new live row in that family is appended, carrying the hash of the returned
refresh JWT, and the counter advances by one.  Needs the id bound so the
hash-update step touches only the new row. -/
lemma createTokenPair_some_spec (cfg : Config) (db : DB) (uid : Nat)
    (email : String) (status : UserStatus) (f now : Nat) (hB : IdBound db) :
    createTokenPair cfg db uid email status (some f) now =
      (⟨⟨uid, email, status⟩,
        .signed ⟨uid, db.nextId, f, now + cfg.refreshExpirySeconds * 1000⟩⟩,
       { db with
         nextId := db.nextId + 1,
         refreshTokens := db.refreshTokens ++
           [⟨db.nextId,
             some (.signed ⟨uid, db.nextId, f, now + cfg.refreshExpirySeconds * 1000⟩),
             uid, f, false, now + cfg.refreshExpirySeconds * 1000⟩] }) := by
  unfold createTokenPair
  simp only [List.map_append]
  have hmap : db.refreshTokens.map (fun r =>
      if r.id = db.nextId then
        { r with tokenHash := some (.signed ⟨uid, db.nextId, f, now + cfg.refreshExpirySeconds * 1000⟩) }
      else r) = db.refreshTokens := by
    have := List.map_congr_left (l := db.refreshTokens)
      (f := fun r : RefreshTokenRec =>
        if r.id = db.nextId then
          { r with tokenHash := some (.signed ⟨uid, db.nextId, f, now + cfg.refreshExpirySeconds * 1000⟩) }
        else r)
      (g := id) (fun r hr => by
        have : r.id ≠ db.nextId := Nat.ne_of_lt (hB r hr).1
        simp [this])
    simpa using this
  rw [hmap]
  simp

/-- Drawing a fresh family first is the same as bumping the counter and then
passing the drawn value explicitly. -/
lemma createTokenPair_none_eq (cfg : Config) (db : DB) (uid : Nat)
    (email : String) (status : UserStatus) (now : Nat) :
    createTokenPair cfg db uid email status none now =
      createTokenPair cfg { db with nextId := db.nextId + 1 } uid email status
        (some db.nextId) now := rfl

/-- `createTokenPair` into a family with no live token (and an in-bounds
family id) preserves the invariant. -/
lemma inv_createTokenPair_some (cfg : Config) (db : DB) (uid : Nat)
    (email : String) (status : UserStatus) (f now : Nat) (h : Inv db)
    (hf : f < db.nextId)
    (hnl : ∀ r ∈ db.refreshTokens, liveIn f r = false) :
    Inv (createTokenPair cfg db uid email status (some f) now).2 := by
  obtain ⟨hB, hH, hP⟩ := h
  rw [createTokenPair_some_spec cfg db uid email status f now hB]
  dsimp only
  refine ⟨?_, ?_, ?_⟩
  · intro r hr
    simp only [List.mem_append, List.mem_singleton] at hr
    rcases hr with hr | rfl
    · exact ⟨Nat.lt_succ_of_lt (hB r hr).1, Nat.lt_succ_of_lt (hB r hr).2⟩
    · exact ⟨Nat.lt_succ_self _, Nat.lt_succ_of_lt hf⟩
  · intro r hr
    simp only [List.mem_append, List.mem_singleton] at hr
    rcases hr with hr | rfl
    · exact hH r hr
    · simp [hashOk]
  · rw [NoTwoLive, List.pairwise_append]
    refine ⟨hP, List.pairwise_singleton _ _, ?_⟩
    intro a ha b hb
    rw [List.mem_singleton] at hb
    subst hb
    have hla := hnl a ha
    by_cases hrev : a.revoked = true
    · exact Or.inl hrev
    · refine Or.inr (Or.inr ?_)
      intro hfam
      rw [liveIn, Bool.and_eq_false_iff] at hla
      rcases hla with h1 | h2
      · rw [Bool.not_eq_false'] at h1
        exact hrev h1
      · rw [beq_eq_false_iff_ne] at h2
        exact h2 (by simpa using hfam)

/-- `createTokenPair` with a fresh family preserves the invariant. -/
lemma inv_createTokenPair_none (cfg : Config) (db : DB) (uid : Nat)
    (email : String) (status : UserStatus) (now : Nat) (h : Inv db) :
    Inv (createTokenPair cfg db uid email status none now).2 := by
  rw [createTokenPair_none_eq]
  apply inv_createTokenPair_some
  · exact h.of_eq rfl (Nat.le_succ _)
  · exact Nat.lt_succ_self _
  · intro r hr
    have := (h.1 r hr).2
    simp only [liveIn, Bool.and_eq_false_iff]
    exact Or.inr (beq_eq_false_iff_ne.mpr (Nat.ne_of_lt this))

lemma hashOk_spec {r : RefreshTokenRec} {c : RefreshClaims}
    (h : hashOk r = true) (ht : r.tokenHash = some (.signed c)) :
    c.sub = r.userId ∧ c.tokenId = r.id ∧ c.family = r.family := by
  rw [hashOk, ht] at h
  simp only [Bool.and_eq_true, beq_iff_eq] at h
  exact ⟨h.1.1, h.1.2, h.2⟩

lemma verifyRefreshToken_signed {now : Nat} {raw : RefreshJwt}
    {claims : RefreshClaims} (h : verifyRefreshToken now raw = some claims) :
    raw = .signed claims ∧ now < claims.exp := by
  cases raw with
  | signed c =>
    rw [verifyRefreshToken] at h
    split at h
    · injection h with h'
      subst h'
      exact ⟨rfl, by assumption⟩
    · cases h
  | malformed b => rw [verifyRefreshToken] at h; cases h

/-- After revoking the one live token of its family by id, no live token of
that family remains. -/
lemma no_live_after_revoke_self {l : List RefreshTokenRec}
    {st : RefreshTokenRec} (hmem : st ∈ l) (hlive : st.revoked = false)
    (hP : NoTwoLive l) :
    ∀ r' ∈ l.map (fun r =>
      if r.id = st.id then { r with revoked := true } else r),
      liveIn st.family r' = false := by
  have hsymm : Symmetric (fun a b : RefreshTokenRec =>
      a.revoked = true ∨ b.revoked = true ∨ a.family ≠ b.family) := by
    intro a b hab
    rcases hab with h1 | h2 | h3
    · exact Or.inr (Or.inl h1)
    · exact Or.inl h2
    · exact Or.inr (Or.inr (Ne.symm h3))
  intro r' hr'
  obtain ⟨r, hrmem, rfl⟩ := List.mem_map.mp hr'
  by_cases hid : r.id = st.id
  · simp [hid, liveIn]
  · rw [if_neg hid]
    have hne : r ≠ st := fun hrs => hid (by rw [hrs])
    have hR := hP.forall hsymm hrmem hmem hne
    rcases hR with h1 | h2 | h3
    · simp [liveIn, h1]
    · rw [h2] at hlive; cases hlive
    · simp only [liveIn, Bool.and_eq_false_iff]
      exact Or.inr (beq_eq_false_iff_ne.mpr h3)

-- ─── Invariant preservation, operation by operation ──────────

lemma inv_registerUser (cfg : Config) (db : DB) (email password name : String)
    (now : Nat) (h : Inv db) :
    Inv (registerUser cfg db email password name now).2 := by
  unfold registerUser
  try dsimp only
  repeat' split
  all_goals first
    | exact h
    | exact h.of_eq rfl le_rfl
    | exact h.of_eq rfl (Nat.le_succ _)
    | exact h.of_eq rfl (Nat.le_add_right _ 2)
    | exact h.of_eq rfl (Nat.le_add_right _ 3)

lemma inv_loginUser (vp : String → String → Bool) (cfg : Config) (db : DB)
    (email password : String) (now : Nat) (h : Inv db) :
    Inv (loginUser vp cfg db email password now).2 := by
  unfold loginUser
  split
  · exact h
  · rename_i user hfind
    split
    · exact h
    · split
      · exact h
      · split
        · exact h
        · split
          · exact inv_createTokenPair_none cfg db user.id user.email user.status now h
          · exact h

lemma inv_logoutUser (db : DB) (raw : Option RefreshJwt) (userId : Nat)
    (h : Inv db) : Inv (logoutUser db raw userId) := by
  unfold logoutUser
  split
  · exact h
  · split
    · exact h
    · exact inv_revokeMap (fun r => r.family = _) rfl le_rfl h

lemma inv_verifyEmail (db : DB) (raw now : Nat) (h : Inv db) :
    Inv (verifyEmail db raw now).2 := by
  unfold verifyEmail
  try dsimp only
  repeat' split
  all_goals first
    | exact h
    | exact h.of_eq rfl le_rfl
    | exact h.of_eq rfl (Nat.le_succ _)
    | exact h.of_eq rfl (Nat.le_add_right _ 2)
    | exact h.of_eq rfl (Nat.le_add_right _ 3)

lemma inv_resendVerification (db : DB) (email : String) (now : Nat)
    (h : Inv db) : Inv (resendVerification db email now).2 := by
  unfold resendVerification
  try dsimp only
  repeat' split
  all_goals first
    | exact h
    | exact h.of_eq rfl le_rfl
    | exact h.of_eq rfl (Nat.le_succ _)
    | exact h.of_eq rfl (Nat.le_add_right _ 2)
    | exact h.of_eq rfl (Nat.le_add_right _ 3)

lemma inv_requestPasswordReset (db : DB) (email : String) (now : Nat)
    (h : Inv db) : Inv (requestPasswordReset db email now).2 := by
  unfold requestPasswordReset
  try dsimp only
  repeat' split
  all_goals first
    | exact h
    | exact h.of_eq rfl le_rfl
    | exact h.of_eq rfl (Nat.le_succ _)
    | exact h.of_eq rfl (Nat.le_add_right _ 2)
    | exact h.of_eq rfl (Nat.le_add_right _ 3)

lemma inv_resetPassword (cfg : Config) (db : DB) (raw : Nat)
    (newPassword : String) (now : Nat) (h : Inv db) :
    Inv (resetPassword cfg db raw newPassword now).2 := by
  unfold resetPassword
  split
  · exact h
  · split
    · exact h.of_eq rfl le_rfl
    · exact inv_revokeMap (fun r => r.userId = _) rfl le_rfl h

lemma inv_refreshTokens (cfg : Config) (db : DB) (raw : RefreshJwt)
    (now : Nat) (h : Inv db) : Inv (refreshTokens cfg db raw now).2 := by
  unfold refreshTokens
  split
  · exact h
  · rename_i claims hver
    split
    · exact inv_revokeMap (fun r => r.family = claims.family) rfl le_rfl h
    · rename_i storedToken hfind
      split
      · exact inv_revokeMap (fun r => r.family = claims.family) rfl le_rfl h
      · split
        · exact h
        · rename_i hrevoked hexp
          have hinv1 : Inv { db with refreshTokens := db.refreshTokens.map fun r =>
              if r.id = storedToken.id then { r with revoked := true } else r } :=
            inv_revokeMap (fun r => r.id = storedToken.id) rfl le_rfl h
          have hpred := List.find?_some hfind
          simp only [Bool.and_eq_true, beq_iff_eq] at hpred
          obtain ⟨hsigned, _⟩ := verifyRefreshToken_signed hver
          have hmem := List.mem_of_find?_eq_some hfind
          have hok := h.2.1 storedToken hmem
          have hfam : claims.family = storedToken.family :=
            (hashOk_spec hok (by rw [hpred.1, hsigned])).2.2
          have hlive : storedToken.revoked = false := by simpa using hrevoked
          dsimp only
          split
          · exact hinv1
          · split
            · exact hinv1
            · dsimp only
              apply inv_createTokenPair_some _ _ _ _ _ _ _ hinv1
              · show claims.family < db.nextId
                rw [hfam]
                exact (h.1 storedToken hmem).2
              · intro r hr
                rw [hfam]
                exact no_live_after_revoke_self hmem hlive h.2.2 r hr

lemma inv_createGroup (db : DB) (userId : Nat) (h : Inv db) :
    Inv (createGroup db userId).2 :=
  h.of_eq rfl (Nat.le_succ _)

lemma inv_addMember (db : DB) (groupId targetUserId : Nat) (role : GroupRole)
    (actingUserId : Nat) (h : Inv db) :
    Inv (addMember db groupId targetUserId role actingUserId).2 := by
  unfold addMember
  try dsimp only
  repeat' split
  all_goals first
    | exact h
    | exact h.of_eq rfl le_rfl
    | exact h.of_eq rfl (Nat.le_succ _)
    | exact h.of_eq rfl (Nat.le_add_right _ 2)
    | exact h.of_eq rfl (Nat.le_add_right _ 3)

lemma inv_removeMember (db : DB) (groupId targetUserId actingUserId : Nat)
    (h : Inv db) : Inv (removeMember db groupId targetUserId actingUserId).2 := by
  unfold removeMember
  try dsimp only
  repeat' split
  all_goals first
    | exact h
    | exact h.of_eq rfl le_rfl
    | exact h.of_eq rfl (Nat.le_succ _)
    | exact h.of_eq rfl (Nat.le_add_right _ 2)
    | exact h.of_eq rfl (Nat.le_add_right _ 3)

lemma inv_createTask (cfg : Config) (db : DB) (title : String)
    (description : Option String) (groupId : Nat) (assigneeId : Option Nat)
    (userId now : Nat) (h : Inv db) :
    Inv (createTask cfg db title description groupId assigneeId userId now).2 := by
  unfold createTask
  try dsimp only
  repeat' split
  all_goals first
    | exact h
    | exact h.of_eq rfl le_rfl
    | exact h.of_eq rfl (Nat.le_succ _)
    | exact h.of_eq rfl (Nat.le_add_right _ 2)
    | exact h.of_eq rfl (Nat.le_add_right _ 3)

lemma inv_updateTask (db : DB) (taskId : Nat) (titleOpt descOpt : Option String)
    (userId now : Nat) (h : Inv db) :
    Inv (updateTask db taskId titleOpt descOpt userId now).2 := by
  unfold updateTask
  try dsimp only
  repeat' split
  all_goals first
    | exact h
    | exact h.of_eq rfl le_rfl
    | exact h.of_eq rfl (Nat.le_succ _)
    | exact h.of_eq rfl (Nat.le_add_right _ 2)
    | exact h.of_eq rfl (Nat.le_add_right _ 3)

lemma inv_updateTaskStatus (db : DB) (taskId : Nat) (newStatus : TaskStatus)
    (userId now : Nat) (h : Inv db) :
    Inv (updateTaskStatus db taskId newStatus userId now).2 := by
  unfold updateTaskStatus
  try dsimp only
  repeat' split
  all_goals first
    | exact h
    | exact h.of_eq rfl le_rfl
    | exact h.of_eq rfl (Nat.le_succ _)
    | exact h.of_eq rfl (Nat.le_add_right _ 2)
    | exact h.of_eq rfl (Nat.le_add_right _ 3)

lemma inv_acceptTask (db : DB) (taskId userId now : Nat) (h : Inv db) :
    Inv (acceptTask db taskId userId now).2 := by
  unfold acceptTask
  try dsimp only
  repeat' split
  all_goals first
    | exact h
    | exact h.of_eq rfl le_rfl
    | exact h.of_eq rfl (Nat.le_succ _)
    | exact h.of_eq rfl (Nat.le_add_right _ 2)
    | exact h.of_eq rfl (Nat.le_add_right _ 3)

lemma inv_assignTask (cfg : Config) (db : DB) (taskId assigneeId userId now : Nat)
    (h : Inv db) : Inv (assignTask cfg db taskId assigneeId userId now).2 := by
  unfold assignTask
  try dsimp only
  repeat' split
  all_goals first
    | exact h
    | exact h.of_eq rfl le_rfl
    | exact h.of_eq rfl (Nat.le_succ _)
    | exact h.of_eq rfl (Nat.le_add_right _ 2)
    | exact h.of_eq rfl (Nat.le_add_right _ 3)

lemma inv_deleteTask (db : DB) (taskId userId now : Nat) (h : Inv db) :
    Inv (deleteTask db taskId userId now).2 := by
  unfold deleteTask
  try dsimp only
  repeat' split
  all_goals first
    | exact h
    | exact h.of_eq rfl le_rfl
    | exact h.of_eq rfl (Nat.le_succ _)
    | exact h.of_eq rfl (Nat.le_add_right _ 2)
    | exact h.of_eq rfl (Nat.le_add_right _ 3)

lemma inv_init : Inv DB.init := by
  refine ⟨?_, ?_, ?_⟩ <;> simp [DB.init, IdBound, HashConsistent, NoTwoLive]

lemma inv_step {cfg : Config} {db db' : DB} (h : Inv db)
    (hs : Step cfg db db') : Inv db' := by
  cases hs with
  | register email password name now => exact inv_registerUser _ _ _ _ _ _ h
  | login email password now => exact inv_loginUser _ _ _ _ _ _ h
  | refresh raw now => exact inv_refreshTokens _ _ _ _ h
  | logout raw userId => exact inv_logoutUser _ _ _ h
  | verify raw now => exact inv_verifyEmail _ _ _ h
  | resend email now => exact inv_resendVerification _ _ _ h
  | requestReset email now => exact inv_requestPasswordReset _ _ _ h
  | resetPwd raw newPassword now => exact inv_resetPassword _ _ _ _ _ h
  | newGroup userId => exact inv_createGroup _ _ h
  | addMem groupId targetUserId role actingUserId =>
      exact inv_addMember _ _ _ _ _ h
  | removeMem groupId targetUserId actingUserId =>
      exact inv_removeMember _ _ _ _ h
  | newTask title description groupId assigneeId userId now =>
      exact inv_createTask _ _ _ _ _ _ _ _ h
  | updTask taskId titleOpt descOpt userId now =>
      exact inv_updateTask _ _ _ _ _ _ h
  | updStatus taskId newStatus userId now =>
      exact inv_updateTaskStatus _ _ _ _ _ h
  | acceptStep taskId userId now => exact inv_acceptTask _ _ _ _ h
  | assignStep taskId assigneeId userId now =>
      exact inv_assignTask _ _ _ _ _ _ h
  | delTask taskId userId now => exact inv_deleteTask _ _ _ _ h

/-- Every reachable store satisfies the refresh-token invariant. -/
lemma inv_reachable {cfg : Config} {db : DB} (h : Reachable cfg db) : Inv db := by
  induction h with
  | init => exact inv_init
  | step _ hs ih => exact inv_step ih hs

-- ─── Evaluation lemmas for refresh rotation ──────────────────

/-- A successful `refreshTokens` call, written out: the presented row is
revoked, and exactly one new live row in the presented family is appended,
holding the hash of the returned refresh JWT. -/
lemma refreshTokens_success_spec (cfg : Config) (db : DB) (raw : RefreshJwt)
    (claims : RefreshClaims) (storedToken : RefreshTokenRec) (user : UserRec)
    (now : Nat) (hInv : Inv db)
    (hver : verifyRefreshToken now raw = some claims)
    (hfind : db.refreshTokens.find?
      (fun r => r.tokenHash == some raw && r.userId == claims.sub) = some storedToken)
    (hrev : storedToken.revoked = false)
    (hexp : ¬ storedToken.expiresAt < now)
    (huser : db.users.find? (fun u => u.id == claims.sub) = some user)
    (hdel : user.deletedAt = none) :
    refreshTokens cfg db raw now =
      (.ok ⟨⟨user.id, user.email, user.status⟩,
            .signed ⟨user.id, db.nextId, claims.family, now + cfg.refreshExpirySeconds * 1000⟩⟩,
       { db with
         nextId := db.nextId + 1,
         refreshTokens := db.refreshTokens.map (fun r =>
             if r.id = storedToken.id then { r with revoked := true } else r) ++
           [⟨db.nextId,
             some (.signed ⟨user.id, db.nextId, claims.family, now + cfg.refreshExpirySeconds * 1000⟩),
             user.id, claims.family, false, now + cfg.refreshExpirySeconds * 1000⟩] }) := by
  have hInv1 : Inv { db with refreshTokens := db.refreshTokens.map (fun r =>
      if r.id = storedToken.id then { r with revoked := true } else r) } :=
    inv_revokeMap (fun r => r.id = storedToken.id) rfl le_rfl hInv
  have hB1 := hInv1.1
  unfold refreshTokens
  simp only [hver, hfind, hrev, Bool.false_eq_true, if_false, if_neg hexp]
  have husers : ({ db with refreshTokens := db.refreshTokens.map (fun r =>
      if r.id = storedToken.id then { r with revoked := true } else r) } : DB).users
      = db.users := rfl
  simp only [husers, huser, hdel, Option.isSome_none, Bool.false_eq_true, if_false]
  rw [createTokenPair_some_spec _ _ _ _ _ _ _ hB1]

/-- Once every stored token of a family is revoked, any refresh attempt
presenting a verifiable token of that family fails with the reuse error. -/
lemma refresh_reuse_of_family_revoked (cfg : Config) (db : DB) (f : Nat)
    (hH : HashConsistent db.refreshTokens)
    (hall : ∀ r ∈ db.refreshTokens, r.family = f → r.revoked = true)
    (raw : RefreshJwt) (claims : RefreshClaims) (now : Nat)
    (hver : verifyRefreshToken now raw = some claims)
    (hfam : claims.family = f) :
    (refreshTokens cfg db raw now).1 = .error tokenReuseErr := by
  obtain ⟨hsig, _⟩ := verifyRefreshToken_signed hver
  cases hfind : db.refreshTokens.find?
      (fun r => r.tokenHash == some raw && r.userId == claims.sub) with
  | none =>
    unfold refreshTokens
    simp [hver, hfind]
  | some st =>
    have hpred := List.find?_some hfind
    simp only [Bool.and_eq_true, beq_iff_eq] at hpred
    have hok := hH st (List.mem_of_find?_eq_some hfind)
    have hfamst : claims.family = st.family :=
      (hashOk_spec hok (by rw [hpred.1, hsig])).2.2
    have hrev : st.revoked = true :=
      hall st (List.mem_of_find?_eq_some hfind) (by rw [← hfamst, hfam])
    unfold refreshTokens
    simp [hver, hfind, hrev]

/-- `revokeFamily` indeed leaves no unrevoked token of the family. -/
lemma revokeFamily_all (db : DB) (f : Nat) :
    ∀ r ∈ (revokeFamily db f).refreshTokens, r.family = f → r.revoked = true := by
  intro r' hr' hfam
  obtain ⟨r, _, rfl⟩ := List.mem_map.mp hr'
  by_cases hrf : r.family = f
  · simp [hrf]
  · rw [if_neg hrf] at hfam ⊢
    exact absurd hfam hrf

/-- A failing `refreshTokens` call never creates a row: the table is the
image of the old one under a map that at most marks rows revoked. -/
lemma refreshTokens_error_frame (cfg : Config) (db : DB) (raw : RefreshJwt)
    (now : Nat) (e : Err) (he : (refreshTokens cfg db raw now).1 = .error e) :
    ∃ g : RefreshTokenRec → RefreshTokenRec,
      (∀ r, g r = r ∨ g r = { r with revoked := true }) ∧
      (refreshTokens cfg db raw now).2.refreshTokens = db.refreshTokens.map g := by
  unfold refreshTokens at he ⊢
  split at he
  · exact ⟨id, fun r => Or.inl rfl, by simp⟩
  · rename_i claims hver
    split at he
    · refine ⟨fun r => if r.family = claims.family then { r with revoked := true } else r,
        fun r => ?_, ?_⟩
      · by_cases hrf : r.family = claims.family
        · exact Or.inr (by simp [hrf])
        · exact Or.inl (by simp [hrf])
      · rename_i hfind
        simp [hfind, revokeFamily]
    · rename_i storedToken hfind
      split at he
      · refine ⟨fun r => if r.family = claims.family then { r with revoked := true } else r,
          fun r => ?_, ?_⟩
        · by_cases hrf : r.family = claims.family
          · exact Or.inr (by simp [hrf])
          · exact Or.inl (by simp [hrf])
        · rename_i hrev
          simp [hfind, hrev, revokeFamily]
      · split at he
        · rename_i hrev hexp
          refine ⟨id, fun r => Or.inl rfl, ?_⟩
          simp [hfind, hrev, hexp]
        · rename_i hrev hexp
          refine ⟨fun r => if r.id = storedToken.id then { r with revoked := true } else r,
            fun r => ?_, ?_⟩
          · by_cases hid : r.id = storedToken.id
            · exact Or.inr (by simp [hid])
            · exact Or.inl (by simp [hid])
          · simp only [hfind, hrev, Bool.false_eq_true, if_false, if_neg hexp]
            dsimp only at he
            split at he
            · rename_i huser
              simp [huser]
            · rename_i user huser
              split at he
              · rename_i hdel
                simp [huser, hdel]
              · cases he

/-- Presenting a token whose stored row is already revoked fails as reuse
and revokes the whole family. -/
lemma refresh_reuse_of_revoked_found (cfg : Config) (db : DB)
    (raw : RefreshJwt) (claims : RefreshClaims) (now : Nat)
    (hver : verifyRefreshToken now raw = some claims)
    (st : RefreshTokenRec)
    (hfind : db.refreshTokens.find?
      (fun r => r.tokenHash == some raw && r.userId == claims.sub) = some st)
    (hrev : st.revoked = true) :
    refreshTokens cfg db raw now =
      (.error tokenReuseErr, revokeFamily db claims.family) := by
  unfold refreshTokens
  simp [hver, hfind, hrev]

-- ─── Claim theorems ──────────────────────────────────────────

/-- C1: for a live, unexpired refresh token of a valid user, the first
`refresh` succeeds; a second `refresh` presenting the same raw token fails
with the token-reuse error; and afterwards every refresh presenting any
verifiable token of that family — in particular the successor returned by
the first, successful call — also fails with the token-reuse error (a fresh
login would start a distinct, unaffected family). -/
theorem refresh_reuse_detection (cfg : Config) (db : DB) (raw : RefreshJwt)
    (claims : RefreshClaims) (storedToken : RefreshTokenRec) (user : UserRec)
    (now now2 : Nat) (hInv : Inv db)
    (hver : verifyRefreshToken now raw = some claims)
    (hfind : db.refreshTokens.find?
      (fun r => r.tokenHash == some raw && r.userId == claims.sub) = some storedToken)
    (hrev : storedToken.revoked = false)
    (hexp : ¬ storedToken.expiresAt < now)
    (huser : db.users.find? (fun u => u.id == claims.sub) = some user)
    (hdel : user.deletedAt = none)
    (hexp2 : now2 < claims.exp) :
    ((refreshTokens cfg db raw now).1 =
      .ok ⟨⟨user.id, user.email, user.status⟩,
           .signed ⟨user.id, db.nextId, claims.family,
             now + cfg.refreshExpirySeconds * 1000⟩⟩)
    ∧ ((refreshTokens cfg ((refreshTokens cfg db raw now).2) raw now2).1 =
        .error tokenReuseErr)
    ∧ (∀ (raw3 : RefreshJwt) (claims3 : RefreshClaims) (now3 : Nat),
        verifyRefreshToken now3 raw3 = some claims3 →
        claims3.family = claims.family →
        (refreshTokens cfg
            ((refreshTokens cfg ((refreshTokens cfg db raw now).2) raw now2).2)
            raw3 now3).1 = .error tokenReuseErr) := by
  have hspec := refreshTokens_success_spec cfg db raw claims storedToken user
    now hInv hver hfind hrev hexp huser hdel
  have hsig := (verifyRefreshToken_signed hver).1
  have hver2 : verifyRefreshToken now2 raw = some claims := by
    rw [hsig]
    simp [verifyRefreshToken, hexp2]
  have hpp : ∀ a : RefreshTokenRec,
      ((if a.id = storedToken.id then { a with revoked := true } else a).tokenHash
          == some raw &&
        (if a.id = storedToken.id then { a with revoked := true } else a).userId
          == claims.sub)
      = (a.tokenHash == some raw && a.userId == claims.sub) := by
    intro a
    by_cases h : a.id = storedToken.id <;> simp [h]
  have hfind1 : ((refreshTokens cfg db raw now).2).refreshTokens.find?
      (fun r => r.tokenHash == some raw && r.userId == claims.sub) =
      some { storedToken with revoked := true } := by
    rw [hspec]
    dsimp only
    rw [List.find?_append, findq_map_pred _ _ _ hpp, hfind]
    simp
  have h2 := refresh_reuse_of_revoked_found cfg ((refreshTokens cfg db raw now).2)
    raw claims now2 hver2 _ hfind1 rfl
  have hInv1 : Inv ((refreshTokens cfg db raw now).2) :=
    inv_refreshTokens cfg db raw now hInv
  refine ⟨by rw [hspec], by rw [h2], ?_⟩
  intro raw3 claims3 now3 hv3 hf3
  rw [h2]
  dsimp only
  have hInv2 : Inv (revokeFamily ((refreshTokens cfg db raw now).2) claims.family) :=
    inv_revokeMap (fun r => r.family = claims.family) rfl le_rfl hInv1
  exact refresh_reuse_of_family_revoked cfg _ claims.family hInv2.2.1
    (revokeFamily_all _ _) raw3 claims3 now3 hv3 hf3

lemma inv_dbW : Inv dbW := by
  unfold Inv IdBound HashConsistent NoTwoLive
  refine ⟨?_, ?_, ?_⟩ <;> decide

lemma inv_dbX : Inv dbX := by
  unfold Inv IdBound HashConsistent NoTwoLive
  refine ⟨?_, ?_, ?_⟩ <;> decide

/-- C1 witness: on the concrete store the hypotheses hold and the first two
refresh calls behave as the theorem states. -/
theorem refresh_reuse_detection_witness :
    Inv dbW ∧
    (refreshTokens cfgW dbW rawW 0).1 =
      .ok ⟨⟨0, "a@example.com", UserStatus.ACTIVE⟩, .signed ⟨0, 3, 2, 604800000⟩⟩ ∧
    (refreshTokens cfgW ((refreshTokens cfgW dbW rawW 0).2) rawW 0).1 =
      .error tokenReuseErr ∧
    (refreshTokens cfgW
        ((refreshTokens cfgW ((refreshTokens cfgW dbW rawW 0).2) rawW 0).2)
        (.signed ⟨0, 3, 2, 604800000⟩) 0).1 = .error tokenReuseErr := by
  have h := refresh_reuse_detection cfgW dbW rawW ⟨0, 1, 2, 1000⟩
    ⟨1, some rawW, 0, 2, false, 1000⟩ userW 0 0 inv_dbW (by decide) rfl rfl
    (by decide) rfl rfl (by decide)
  exact ⟨inv_dbW, h.1, h.2.1, h.2.2 (.signed ⟨0, 3, 2, 604800000⟩)
    ⟨0, 3, 2, 604800000⟩ 0 (by decide) rfl⟩

/-- C2 counterexample: a refresh call that fails (token reuse) while
changing the stored refresh-token state — the claim that a failing refresh
leaves the stored refresh-token state unchanged is false on the code. -/
theorem refresh_failed_state_change_counterexample :
    (refreshTokens cfgW dbX rawA 0).1 = .error tokenReuseErr ∧
    (refreshTokens cfgW dbX rawA 0).2 ≠ dbX := by
  exact ⟨rfl, by decide⟩

/-- C2 (amended): on success, rotation revokes exactly the presented row and
appends exactly one live successor in the same family (holding the hash of
the returned refresh JWT) — nothing else in refresh-token storage changes;
on failure no successor is ever created — the stored table is the image of
the old one under a map that at most marks rows revoked (reuse detection
revokes the family; a missing or deleted user leaves only the presented row
revoked; other failures change nothing). -/
theorem refresh_rotation_atomicity (cfg : Config) (db : DB) (raw : RefreshJwt)
    (now : Nat) (hInv : Inv db) :
    (∀ tokens, (refreshTokens cfg db raw now).1 = .ok tokens →
      ∃ claims storedToken,
        verifyRefreshToken now raw = some claims ∧
        db.refreshTokens.find?
          (fun r => r.tokenHash == some raw && r.userId == claims.sub) =
          some storedToken ∧
        storedToken.revoked = false ∧
        tokens.refreshToken =
          .signed ⟨claims.sub, db.nextId, claims.family,
            now + cfg.refreshExpirySeconds * 1000⟩ ∧
        (refreshTokens cfg db raw now).2.refreshTokens =
          db.refreshTokens.map (fun r =>
            if r.id = storedToken.id then { r with revoked := true } else r) ++
          [⟨db.nextId, some tokens.refreshToken, claims.sub, claims.family,
            false, now + cfg.refreshExpirySeconds * 1000⟩])
    ∧ (∀ e, (refreshTokens cfg db raw now).1 = .error e →
        ∃ g : RefreshTokenRec → RefreshTokenRec,
          (∀ r, g r = r ∨ g r = { r with revoked := true }) ∧
          (refreshTokens cfg db raw now).2.refreshTokens =
            db.refreshTokens.map g) := by
  constructor
  · intro tokens htok
    unfold refreshTokens at htok
    split at htok
    · cases htok
    · rename_i claims hver
      split at htok
      · cases htok
      · rename_i storedToken hfind
        split at htok
        · cases htok
        · split at htok
          · cases htok
          · rename_i hrevoked hexp
            have hrev : storedToken.revoked = false := by simpa using hrevoked
            dsimp only at htok
            split at htok
            · cases htok
            · rename_i user huser
              split at htok
              · cases htok
              · rename_i hdels
                have hdel : user.deletedAt = none :=
                  Option.not_isSome_iff_eq_none.mp hdels
                have husub : user.id = claims.sub := by
                  have := List.find?_some huser
                  rwa [beq_iff_eq] at this
                have hspec := refreshTokens_success_spec cfg db raw claims
                  storedToken user now hInv hver hfind hrev hexp huser hdel
                have hInv1 : Inv { db with refreshTokens := db.refreshTokens.map (fun r =>
                      if r.id = storedToken.id then { r with revoked := true } else r) } :=
                  inv_revokeMap (fun r => r.id = storedToken.id) rfl le_rfl hInv
                have hc := createTokenPair_some_spec cfg
                  { db with refreshTokens := db.refreshTokens.map (fun r =>
                      if r.id = storedToken.id then { r with revoked := true } else r) }
                  user.id user.email user.status claims.family now hInv1.1
                rw [hc] at htok
                dsimp only at htok
                injection htok with htokeq
                subst htokeq
                refine ⟨claims, storedToken, hver, hfind, hrev, ?_, ?_⟩
                · rw [← husub]
                · rw [hspec, ← husub]
  · exact refreshTokens_error_frame cfg db raw now

/-- C2 witness: a concrete successful rotation and a concrete failing call,
through the amended theorem. -/
theorem refresh_rotation_atomicity_witness :
    Inv dbW ∧
    (∃ claims storedToken,
      verifyRefreshToken 0 rawW = some claims ∧
      dbW.refreshTokens.find?
        (fun r => r.tokenHash == some rawW && r.userId == claims.sub) =
        some storedToken ∧
      storedToken.revoked = false ∧
      (AuthTokens.mk ⟨0, "a@example.com", UserStatus.ACTIVE⟩
          (.signed ⟨0, 3, 2, 604800000⟩)).refreshToken =
        .signed ⟨claims.sub, dbW.nextId, claims.family,
          0 + cfgW.refreshExpirySeconds * 1000⟩ ∧
      (refreshTokens cfgW dbW rawW 0).2.refreshTokens =
        dbW.refreshTokens.map (fun r =>
          if r.id = storedToken.id then { r with revoked := true } else r) ++
        [⟨dbW.nextId,
          some (AuthTokens.mk ⟨0, "a@example.com", UserStatus.ACTIVE⟩
            (.signed ⟨0, 3, 2, 604800000⟩)).refreshToken,
          claims.sub, claims.family, false,
          0 + cfgW.refreshExpirySeconds * 1000⟩]) ∧
    (∃ g, (∀ r, g r = r ∨ g r = { r with revoked := true }) ∧
      (refreshTokens cfgW dbX rawA 0).2.refreshTokens =
        dbX.refreshTokens.map g) := by
  refine ⟨inv_dbW, ?_, ?_⟩
  · exact (refresh_rotation_atomicity cfgW dbW rawW 0 inv_dbW).1
      ⟨⟨0, "a@example.com", UserStatus.ACTIVE⟩, .signed ⟨0, 3, 2, 604800000⟩⟩ rfl
  · exact (refresh_rotation_atomicity cfgW dbX rawA 0 inv_dbX).2
      tokenReuseErr rfl

/-- C3: in every reachable store, each refresh-token family holds at most
one non-revoked token: login starts a fresh single-token family, rotation
revokes the presented token as it creates the successor, and no operation
leaves two live tokens in one family. -/
theorem family_single_live_invariant (cfg : Config) (db : DB)
    (h : Reachable cfg db) (f : Nat) :
    (db.refreshTokens.filter (liveIn f)).length ≤ 1 :=
  noTwoLive_count (inv_reachable h).2.2 f

/-- C3 witness: the store reached by a registration followed by a login
satisfies the bound (for the family created by that login). -/
theorem family_single_live_invariant_witness :
    Reachable cfgW ((loginUser cfgW.verifyPassword cfgW
        ((registerUser cfgW DB.init "a@example.com" "pw" "Alice" 0).2)
        "a@example.com" "pw" 5).2) ∧
    ((((loginUser cfgW.verifyPassword cfgW
        ((registerUser cfgW DB.init "a@example.com" "pw" "Alice" 0).2)
        "a@example.com" "pw" 5).2).refreshTokens.filter (liveIn 3)).length ≤ 1) := by
  have hr : Reachable cfgW ((loginUser cfgW.verifyPassword cfgW
      ((registerUser cfgW DB.init "a@example.com" "pw" "Alice" 0).2)
      "a@example.com" "pw" 5).2) :=
    Reachable.step
      (Reachable.step Reachable.init
        (Step.register DB.init "a@example.com" "pw" "Alice" 0))
      (Step.login _ "a@example.com" "pw" 5)
  exact ⟨hr, family_single_live_invariant cfgW _ hr 3⟩

/-- C4: for a non-deleted task whose caller is a group member, every status
pair outside the transition table makes `updateTaskStatus` fail with the
invalid-transition error and leave the store unchanged, and every pair in
the table makes it succeed, setting exactly the requested status. -/
theorem updateTaskStatus_table_total (db : DB) (taskId : Nat)
    (fromS toS : TaskStatus) (userId now : Nat) (task : TaskRec)
    (hfind : db.tasks.find? (fun t => t.id == taskId && t.deletedAt == none) =
      some task)
    (hstatus : task.status = fromS)
    (hmem : assertGroupMember db task.groupId userId = .ok ()) :
    (isValidTransition fromS toS = false →
      (updateTaskStatus db taskId toS userId now).1 =
        .error (invalidTransitionErr fromS toS) ∧
      (updateTaskStatus db taskId toS userId now).2 = db)
    ∧ (isValidTransition fromS toS = true →
      (updateTaskStatus db taskId toS userId now).1 =
        .ok { task with status := toS, updatedAt := now } ∧
      (updateTaskStatus db taskId toS userId now).2 =
        { db with tasks := db.tasks.map (fun t =>
          if t.id = taskId then { task with status := toS, updatedAt := now }
          else t) }) := by
  subst hstatus
  unfold updateTaskStatus getTaskById
  simp only [hfind, hmem]
  constructor
  · intro hv
    simp [hv]
  · intro hv
    simp [hv]

/-- C4 witness: on a concrete task board, OPEN→IN_PROGRESS succeeds and
OPEN→COMPLETED fails with the invalid-transition error. -/
theorem updateTaskStatus_table_total_witness :
    (updateTaskStatus dbT 10 .IN_PROGRESS 1 7).1 =
      .ok { taskW with status := .IN_PROGRESS, updatedAt := 7 } ∧
    (updateTaskStatus dbT 10 .COMPLETED 1 7).1 =
      .error (invalidTransitionErr .OPEN .COMPLETED) := by
  refine ⟨((updateTaskStatus_table_total dbT 10 .OPEN .IN_PROGRESS 1 7 taskW
      rfl rfl rfl).2 (by decide)).1,
    ((updateTaskStatus_table_total dbT 10 .OPEN .COMPLETED 1 7 taskW
      rfl rfl rfl).1 (by decide)).1⟩

/-- The transition table, pair by pair: exactly
PENDING_ACCEPTANCE→OPEN|CLOSED, OPEN→IN_PROGRESS|CLOSED,
IN_PROGRESS→COMPLETED|OPEN|CLOSED, COMPLETED→CLOSED, and nothing out of
CLOSED. -/
lemma isValidTransition_pairs (f t : TaskStatus) :
    isValidTransition f t = true ↔
      (f, t) ∈ ([(.PENDING_ACCEPTANCE, .OPEN), (.PENDING_ACCEPTANCE, .CLOSED),
        (.OPEN, .IN_PROGRESS), (.OPEN, .CLOSED),
        (.IN_PROGRESS, .COMPLETED), (.IN_PROGRESS, .OPEN),
        (.IN_PROGRESS, .CLOSED), (.COMPLETED, .CLOSED)] :
        List (TaskStatus × TaskStatus)) := by
  cases f <;> cases t <;> decide

/-- No table entry targets PENDING_ACCEPTANCE. -/
lemma valid_transition_never_pending (f t : TaskStatus)
    (h : isValidTransition f t = true) : t ≠ .PENDING_ACCEPTANCE := by
  revert h
  cases f <;> cases t <;> decide

/-- C10: a successful `updateTaskStatus` changes only the status (and the
store-maintained `updatedAt`): title, description, group, creator, assignee,
`acceptedAt` and `deletedAt` are untouched; a task accepted via this path
keeps `acceptedAt = none`; and the new status is never
PENDING_ACCEPTANCE, because no table entry targets it. -/
theorem updateTaskStatus_frame (db : DB) (taskId : Nat)
    (newStatus : TaskStatus) (userId now : Nat) (t' : TaskRec)
    (h : (updateTaskStatus db taskId newStatus userId now).1 = .ok t') :
    ∃ task,
      db.tasks.find? (fun t => t.id == taskId && t.deletedAt == none) =
        some task ∧
      t'.title = task.title ∧ t'.description = task.description ∧
      t'.groupId = task.groupId ∧ t'.createdById = task.createdById ∧
      t'.assigneeId = task.assigneeId ∧ t'.acceptedAt = task.acceptedAt ∧
      t'.deletedAt = task.deletedAt ∧ t'.status = newStatus ∧
      newStatus ≠ .PENDING_ACCEPTANCE ∧
      (task.acceptedAt = none → t'.acceptedAt = none) := by
  unfold updateTaskStatus at h
  split at h
  · cases h
  · rename_i task hget
    split at h
    · cases h
    · rename_i hvneg
      have hv : isValidTransition task.status newStatus = true := by
        simpa using hvneg
      dsimp only at h
      injection h with h
      subst h
      unfold getTaskById at hget
      split at hget
      · cases hget
      · rename_i task0 hfind0
        split at hget
        · cases hget
        · injection hget with hget
          subst hget
          exact ⟨task0, hfind0, rfl, rfl, rfl, rfl, rfl, rfl, rfl, rfl,
            valid_transition_never_pending _ _ hv, fun hn => hn⟩

/-- C10 witness: the concrete successful OPEN→IN_PROGRESS update from the
C4 board, through the frame theorem. -/
theorem updateTaskStatus_frame_witness :
    ∃ task,
      dbT.tasks.find? (fun t => t.id == (10 : Nat) && t.deletedAt == none) =
        some task ∧
      ({ taskW with status := .IN_PROGRESS, updatedAt := 7 } : TaskRec).title =
        task.title ∧
      ({ taskW with status := .IN_PROGRESS, updatedAt := 7 } : TaskRec).description =
        task.description ∧
      ({ taskW with status := .IN_PROGRESS, updatedAt := 7 } : TaskRec).groupId =
        task.groupId ∧
      ({ taskW with status := .IN_PROGRESS, updatedAt := 7 } : TaskRec).createdById =
        task.createdById ∧
      ({ taskW with status := .IN_PROGRESS, updatedAt := 7 } : TaskRec).assigneeId =
        task.assigneeId ∧
      ({ taskW with status := .IN_PROGRESS, updatedAt := 7 } : TaskRec).acceptedAt =
        task.acceptedAt ∧
      ({ taskW with status := .IN_PROGRESS, updatedAt := 7 } : TaskRec).deletedAt =
        task.deletedAt ∧
      ({ taskW with status := .IN_PROGRESS, updatedAt := 7 } : TaskRec).status =
        TaskStatus.IN_PROGRESS ∧
      TaskStatus.IN_PROGRESS ≠ TaskStatus.PENDING_ACCEPTANCE ∧
      (task.acceptedAt = none →
        ({ taskW with status := .IN_PROGRESS, updatedAt := 7 } : TaskRec).acceptedAt =
          none) :=
  updateTaskStatus_frame dbT 10 .IN_PROGRESS 1 7
    { taskW with status := .IN_PROGRESS, updatedAt := 7 } rfl

/-- C5 counterexample: `accept` called by a user other than the assignee
does not always fail with the FORBIDDEN error — a caller who is not a group
member fails the membership assertion first, with NOT_A_MEMBER. -/
theorem accept_nonmember_counterexample :
    (7 : Nat) ≠ 1 ∧ taskP.assigneeId = some 1 ∧
    (acceptTask dbH 20 7 0).1 = .error notAMemberErr ∧
    notAMemberErr ≠ acceptForbiddenErr := by
  exact ⟨by decide, rfl, rfl, by decide⟩

/-- C5 (amended): the assignment handshake.  Creating a task with a
group-member assignee (assignments enabled) yields PENDING_ACCEPTANCE with
`acceptedAt` unset; `accept` by the assignee on a PENDING_ACCEPTANCE task
moves it to OPEN and stamps `acceptedAt`; `accept` by a *group member* other
than the assignee fails with FORBIDDEN, while a non-member fails with
NOT_A_MEMBER; `accept` by the assignee in any other status fails with
INVALID_STATE; and `assign` by the creator to a group member on an OPEN
task resets the status to PENDING_ACCEPTANCE and clears `acceptedAt`. -/
theorem assignment_handshake :
    (∀ (cfg : Config) (db : DB) (title : String) (desc : Option String)
        (g U caller now : Nat),
      cfg.assignmentsEnabled = true →
      assertGroupMember db g caller = .ok () →
      assertGroupMember db g U = .ok () →
      (createTask cfg db title desc g (some U) caller now).1 =
        .ok ⟨db.nextId, title, desc, .PENDING_ACCEPTANCE, g, caller, some U,
          none, now, now, none⟩) ∧
    (∀ (db : DB) (taskId U now : Nat) (task : TaskRec),
      db.tasks.find? (fun t => t.id == taskId && t.deletedAt == none) =
        some task →
      assertGroupMember db task.groupId U = .ok () →
      task.assigneeId = some U →
      task.status = .PENDING_ACCEPTANCE →
      (acceptTask db taskId U now).1 =
        .ok { task with
          status := .OPEN, acceptedAt := some now, updatedAt := now }) ∧
    (∀ (db : DB) (taskId v now : Nat) (task : TaskRec),
      db.tasks.find? (fun t => t.id == taskId && t.deletedAt == none) =
        some task →
      assertGroupMember db task.groupId v = .ok () →
      task.assigneeId ≠ some v →
      (acceptTask db taskId v now).1 = .error acceptForbiddenErr) ∧
    (∀ (db : DB) (taskId U now : Nat) (task : TaskRec),
      db.tasks.find? (fun t => t.id == taskId && t.deletedAt == none) =
        some task →
      assertGroupMember db task.groupId U = .ok () →
      task.assigneeId = some U →
      task.status ≠ .PENDING_ACCEPTANCE →
      (acceptTask db taskId U now).1 = .error invalidStateErr) ∧
    (∀ (db : DB) (taskId v now : Nat) (task : TaskRec),
      db.tasks.find? (fun t => t.id == taskId && t.deletedAt == none) =
        some task →
      assertGroupMember db task.groupId v = .error notAMemberErr →
      (acceptTask db taskId v now).1 = .error notAMemberErr) ∧
    (∀ (cfg : Config) (db : DB) (taskId na caller now : Nat) (task : TaskRec),
      cfg.assignmentsEnabled = true →
      db.tasks.find? (fun t => t.id == taskId && t.deletedAt == none) =
        some task →
      assertGroupMember db task.groupId caller = .ok () →
      task.createdById = caller →
      assertGroupMember db task.groupId na = .ok () →
      task.status = .OPEN →
      (assignTask cfg db taskId na caller now).1 =
        .ok { task with
          assigneeId := some na, status := .PENDING_ACCEPTANCE,
          acceptedAt := none, updatedAt := now }) := by
  refine ⟨?_, ?_, ?_, ?_, ?_, ?_⟩
  · intro cfg db title desc g U caller now hflag hm1 hm2
    unfold createTask
    simp [hm1, hm2, hflag]
  · intro db taskId U now task hfind hmem hass hstatus
    unfold acceptTask getTaskById
    simp [hfind, hmem, hass, hstatus]
  · intro db taskId v now task hfind hmem hne
    unfold acceptTask getTaskById
    simp [hfind, hmem, hne]
  · intro db taskId U now task hfind hmem hass hstatus
    unfold acceptTask getTaskById
    simp [hfind, hmem, hass, hstatus]
  · intro db taskId v now task hfind hmem
    unfold acceptTask getTaskById
    simp [hfind, hmem]
  · intro cfg db taskId na caller now task hflag hfind hmemc hcreator hmemna _
    unfold assignTask getTaskById
    simp [hflag, hfind, hmemc, hcreator, hmemna]

/-- C5 witness: every leg of the handshake exercised on the concrete board,
through the amended theorem. -/
theorem assignment_handshake_witness :
    (createTask cfgW dbH "T" none 5 (some 2) 1 3).1 =
      .ok ⟨23, "T", none, .PENDING_ACCEPTANCE, 5, 1, some 2, none, 3, 3, none⟩ ∧
    (acceptTask dbH 20 1 4).1 =
      .ok { taskP with status := .OPEN, acceptedAt := some 4, updatedAt := 4 } ∧
    (acceptTask dbH 20 2 4).1 = .error acceptForbiddenErr ∧
    (acceptTask dbH 22 1 4).1 = .error invalidStateErr ∧
    (acceptTask dbH 20 7 4).1 = .error notAMemberErr ∧
    (assignTask cfgW dbH 22 2 1 6).1 =
      .ok { taskQ with
        assigneeId := some 2, status := .PENDING_ACCEPTANCE,
        acceptedAt := none, updatedAt := 6 } := by
  refine ⟨assignment_handshake.1 cfgW dbH "T" none 5 2 1 3 rfl rfl rfl,
    assignment_handshake.2.1 dbH 20 1 4 taskP rfl rfl rfl rfl,
    assignment_handshake.2.2.1 dbH 20 2 4 taskP rfl rfl (by decide),
    assignment_handshake.2.2.2.1 dbH 22 1 4 taskQ rfl rfl rfl (by decide),
    assignment_handshake.2.2.2.2.1 dbH 20 7 4 taskP rfl rfl,
    assignment_handshake.2.2.2.2.2 cfgW dbH 22 2 1 6 taskQ rfl rfl rfl rfl rfl rfl⟩

/-- C6 counterexample: a soft-deleted account with no password hash is
rejected by login with the generic INVALID_CREDENTIALS error, not with
ACCOUNT_DELETED — the password-hash check runs before the soft-delete
check. -/
theorem login_deleted_account_counterexample :
    dbL.users.find? (fun u => u.email == "o@example.com") = some userOauth ∧
    userOauth.deletedAt.isSome = true ∧
    (loginUser cfgW.verifyPassword cfgW dbL "o@example.com" "pw" 0).1 =
      .error invalidCredentialsErr ∧
    invalidCredentialsErr ≠ accountDeletedErr := by
  exact ⟨rfl, rfl, rfl, by decide⟩

/-- C6 (amended): for accounts that carry a password hash, login rejects a
soft-deleted account with ACCOUNT_DELETED and a SUSPENDED account with
ACCOUNT_SUSPENDED, in both cases independently of the password verifier
(it is never consulted); an unknown email, a wrong password, and an account
without a password hash all yield the identical generic INVALID_CREDENTIALS
error value. -/
theorem login_error_discipline :
    (∀ (vp : String → String → Bool) (cfg : Config) (db : DB)
        (email password : String) (now : Nat) (user : UserRec) (ph : String),
      db.users.find? (fun u => u.email == email) = some user →
      user.passwordHash = some ph →
      user.deletedAt.isSome = true →
      (loginUser vp cfg db email password now).1 = .error accountDeletedErr) ∧
    (∀ (vp : String → String → Bool) (cfg : Config) (db : DB)
        (email password : String) (now : Nat) (user : UserRec) (ph : String),
      db.users.find? (fun u => u.email == email) = some user →
      user.passwordHash = some ph →
      user.deletedAt = none →
      user.status = .SUSPENDED →
      (loginUser vp cfg db email password now).1 = .error accountSuspendedErr) ∧
    (∀ (vp : String → String → Bool) (cfg : Config) (db : DB)
        (email password : String) (now : Nat),
      db.users.find? (fun u => u.email == email) = none →
      (loginUser vp cfg db email password now).1 = .error invalidCredentialsErr) ∧
    (∀ (vp : String → String → Bool) (cfg : Config) (db : DB)
        (email password : String) (now : Nat) (user : UserRec) (ph : String),
      db.users.find? (fun u => u.email == email) = some user →
      user.passwordHash = some ph →
      user.deletedAt = none →
      user.status ≠ .SUSPENDED →
      vp ph password = false →
      (loginUser vp cfg db email password now).1 = .error invalidCredentialsErr) ∧
    (∀ (vp : String → String → Bool) (cfg : Config) (db : DB)
        (email password : String) (now : Nat) (user : UserRec),
      db.users.find? (fun u => u.email == email) = some user →
      user.passwordHash = none →
      (loginUser vp cfg db email password now).1 = .error invalidCredentialsErr) := by
  refine ⟨?_, ?_, ?_, ?_, ?_⟩
  · intro vp cfg db email password now user ph hfind hph hdel
    unfold loginUser
    simp [hfind, hph, hdel]
  · intro vp cfg db email password now user ph hfind hph hdel hsusp
    unfold loginUser
    simp [hfind, hph, hdel, hsusp]
  · intro vp cfg db email password now hfind
    unfold loginUser
    simp [hfind]
  · intro vp cfg db email password now user ph hfind hph hdel hsusp hvp
    unfold loginUser
    simp [hfind, hph, hdel, hsusp, hvp]
  · intro vp cfg db email password now user hfind hph
    unfold loginUser
    simp [hfind, hph]

/-- C6 witness: each branch of the discipline exercised on the concrete
user table (deleted-with-hash, suspended, unknown email, wrong password). -/
theorem login_error_discipline_witness :
    (loginUser cfgW.verifyPassword cfgW dbL "del@example.com" "pw" 0).1 =
      .error accountDeletedErr ∧
    (loginUser cfgW.verifyPassword cfgW dbL "s@example.com" "pw" 0).1 =
      .error accountSuspendedErr ∧
    (loginUser cfgW.verifyPassword cfgW dbL "zz@example.com" "pw" 0).1 =
      .error invalidCredentialsErr ∧
    (loginUser cfgW.verifyPassword cfgW dbL "a@example.com" "wrong" 0).1 =
      .error invalidCredentialsErr := by
  refine ⟨login_error_discipline.1 cfgW.verifyPassword cfgW dbL
      "del@example.com" "pw" 0 userDel "pw" rfl rfl rfl,
    login_error_discipline.2.1 cfgW.verifyPassword cfgW dbL
      "s@example.com" "pw" 0 userS "pw" rfl rfl rfl rfl,
    login_error_discipline.2.2.1 cfgW.verifyPassword cfgW dbL
      "zz@example.com" "pw" 0 rfl,
    login_error_discipline.2.2.2.1 cfgW.verifyPassword cfgW dbL
      "a@example.com" "wrong" 0 userW "pw" rfl rfl rfl (by decide) (by decide)⟩

/-- C7: with the password-reset flag on and in production mode, the two
recovery endpoints never fail and produce one fixed 200 response each,
identical across all stores, emails and times (so existing and non-existing
accounts are indistinguishable); internally, a verification token is issued
exactly for an email belonging to an UNVERIFIED user and a reset token
exactly for an email belonging to a non-deleted user — in every other case
nothing is created and nothing stored is deleted. -/
theorem recovery_enumeration_resistance (cfg : Config)
    (hprod : cfg.production = true) (hflag : cfg.passwordResetEnabled = true) :
    (∀ (db db2 : DB) (email email2 : String) (now now2 : Nat),
      (resendVerificationRoute cfg db email now).1 =
        (resendVerificationRoute cfg db2 email2 now2).1 ∧
      (forgotPasswordRoute cfg db email now).1 =
        (forgotPasswordRoute cfg db2 email2 now2).1 ∧
      (resendVerificationRoute cfg db email now).1.status = 200 ∧
      (forgotPasswordRoute cfg db email now).1.status = 200) ∧
    (∀ (db : DB) (email : String) (now : Nat) (user : UserRec),
      db.users.find? (fun u => u.email == email) = some user →
      user.status = .UNVERIFIED →
      (resendVerification db email now).1 = some db.nextId ∧
      (resendVerification db email now).2.verificationTokens =
        db.verificationTokens.filter (fun t => t.userId != user.id) ++
        [⟨db.nextId + 1, db.nextId, user.id, now + 24 * 60 * 60 * 1000⟩]) ∧
    (∀ (db : DB) (email : String) (now : Nat) (user : UserRec),
      db.users.find? (fun u => u.email == email) = some user →
      user.status ≠ .UNVERIFIED →
      resendVerification db email now = (none, db)) ∧
    (∀ (db : DB) (email : String) (now : Nat),
      db.users.find? (fun u => u.email == email) = none →
      resendVerification db email now = (none, db)) ∧
    (∀ (db : DB) (email : String) (now : Nat) (user : UserRec),
      db.users.find? (fun u => u.email == email) = some user →
      user.deletedAt = none →
      (requestPasswordReset db email now).1 = some db.nextId ∧
      (requestPasswordReset db email now).2.passwordResetTokens =
        db.passwordResetTokens.filter (fun t => t.userId != user.id) ++
        [⟨db.nextId + 1, db.nextId, user.id, now + 15 * 60 * 1000⟩]) ∧
    (∀ (db : DB) (email : String) (now : Nat) (user : UserRec),
      db.users.find? (fun u => u.email == email) = some user →
      user.deletedAt.isSome = true →
      requestPasswordReset db email now = (none, db)) ∧
    (∀ (db : DB) (email : String) (now : Nat),
      db.users.find? (fun u => u.email == email) = none →
      requestPasswordReset db email now = (none, db)) := by
  refine ⟨?_, ?_, ?_, ?_, ?_, ?_, ?_⟩
  · intro db db2 email email2 now now2
    refine ⟨?_, ?_, ?_, ?_⟩ <;>
      simp [resendVerificationRoute, forgotPasswordRoute, hprod, hflag]
  · intro db email now user hfind hstat
    unfold resendVerification
    simp [hfind, hstat]
  · intro db email now user hfind hstat
    unfold resendVerification
    simp [hfind, hstat]
  · intro db email now hfind
    unfold resendVerification
    simp [hfind]
  · intro db email now user hfind hdel
    unfold requestPasswordReset
    simp [hfind, hdel]
  · intro db email now user hfind hdel
    unfold requestPasswordReset
    simp [hfind, hdel]
  · intro db email now hfind
    unfold requestPasswordReset
    simp [hfind]

/-- C7 witness: on concrete stores, the route responses for a non-existing
email and an existing one coincide; a verification token is issued for an
UNVERIFIED user and withheld from an ACTIVE one; a reset token is issued
for a live user and withheld from a soft-deleted one. -/
theorem recovery_enumeration_resistance_witness :
    (resendVerificationRoute cfgW dbL "nobody@example.com" 0).1 =
      (resendVerificationRoute cfgW DB.init "u@example.com" 5).1 ∧
    (forgotPasswordRoute cfgW dbL "nobody@example.com" 0).1 =
      (forgotPasswordRoute cfgW DB.init "u@example.com" 5).1 ∧
    (resendVerification dbL "u@example.com" 0).1 = some dbL.nextId ∧
    resendVerification dbL "a@example.com" 0 = (none, dbL) ∧
    (requestPasswordReset dbL "u@example.com" 0).1 = some dbL.nextId ∧
    requestPasswordReset dbL "del@example.com" 0 = (none, dbL) ∧
    requestPasswordReset dbL "nobody@example.com" 0 = (none, dbL) := by
  have h := recovery_enumeration_resistance cfgW rfl rfl
  exact ⟨(h.1 dbL DB.init "nobody@example.com" "u@example.com" 0 5).1,
    (h.1 dbL DB.init "nobody@example.com" "u@example.com" 0 5).2.1,
    (h.2.1 dbL "u@example.com" 0 userU rfl rfl).1,
    h.2.2.1 dbL "a@example.com" 0 userW rfl (by decide),
    (h.2.2.2.2.1 dbL "u@example.com" 0 userU rfl rfl).1,
    h.2.2.2.2.2.1 dbL "del@example.com" 0 userDel rfl rfl,
    h.2.2.2.2.2.2 dbL "nobody@example.com" 0 rfl⟩

/-- C8: a valid, unexpired reset token makes `resetPassword` succeed, and
the resulting store — produced by the single transaction — has the user's
password hash replaced, the consumed token deleted, and every refresh token
of that user (across all families) marked revoked. -/
theorem resetPassword_complete (cfg : Config) (db : DB) (raw : Nat)
    (newPassword : String) (now : Nat) (stored : OpaqueTokenRec)
    (hfind : db.passwordResetTokens.find? (fun t => t.tokenHash == raw) =
      some stored)
    (hexp : ¬ stored.expiresAt < now) :
    (resetPassword cfg db raw newPassword now).1 = .ok () ∧
    (resetPassword cfg db raw newPassword now).2.users =
      db.users.map (fun u => if u.id = stored.userId then
        { u with passwordHash := some (cfg.hashPassword newPassword) } else u) ∧
    (resetPassword cfg db raw newPassword now).2.passwordResetTokens =
      db.passwordResetTokens.filter (fun t => t.id != stored.id) ∧
    (resetPassword cfg db raw newPassword now).2.refreshTokens =
      db.refreshTokens.map (fun r => if r.userId = stored.userId then
        { r with revoked := true } else r) ∧
    (∀ r ∈ (resetPassword cfg db raw newPassword now).2.refreshTokens,
      r.userId = stored.userId → r.revoked = true) := by
  unfold resetPassword
  simp only [hfind, if_neg hexp]
  refine ⟨trivial, trivial, trivial, trivial, ?_⟩
  intro r' hr' huid
  obtain ⟨r, _, rfl⟩ := List.mem_map.mp hr'
  by_cases hu : r.userId = stored.userId
  · simp [hu]
  · rw [if_neg hu] at huid ⊢
    exact absurd huid hu

/-- C8 witness: the concrete reset consumes token 4, rewrites the password
hash, and revokes the user's tokens in both families. -/
theorem resetPassword_complete_witness :
    (resetPassword cfgW dbR 9 "newpw" 0).1 = .ok () ∧
    (resetPassword cfgW dbR 9 "newpw" 0).2.users =
      dbR.users.map (fun u => if u.id = (0 : Nat) then
        { u with passwordHash := some (cfgW.hashPassword "newpw") } else u) ∧
    (resetPassword cfgW dbR 9 "newpw" 0).2.passwordResetTokens =
      dbR.passwordResetTokens.filter (fun t => t.id != (4 : Nat)) ∧
    (resetPassword cfgW dbR 9 "newpw" 0).2.refreshTokens =
      dbR.refreshTokens.map (fun r => if r.userId = (0 : Nat) then
        { r with revoked := true } else r) ∧
    (∀ r ∈ (resetPassword cfgW dbR 9 "newpw" 0).2.refreshTokens,
      r.userId = (0 : Nat) → r.revoked = true) :=
  resetPassword_complete cfgW dbR 9 "newpw" 0 ⟨4, 9, 0, 100⟩ rfl (by decide)

/-- Under the store's (userId, groupId) uniqueness, deleting one member of
a group that has at least two ADMIN rows leaves at least one ADMIN row. -/
lemma admins_remain (l : List GroupMemberRec) (g target : Nat)
    (hnodup : (l.map (fun m => (m.userId, m.groupId))).Nodup)
    (h2 : 2 ≤ (l.filter (fun m =>
      m.groupId == g && m.role == GroupRole.ADMIN)).length) :
    1 ≤ ((l.filter (fun m => !(m.userId == target && m.groupId == g))).filter
        (fun m => m.groupId == g && m.role == GroupRole.ADMIN)).length := by
  cases hA : l.filter (fun m => m.groupId == g && m.role == GroupRole.ADMIN) with
  | nil => rw [hA] at h2; simp at h2
  | cons a rest =>
    cases rest with
    | nil => rw [hA] at h2; simp at h2
    | cons b rest2 =>
      have hmemA : a ∈ l.filter (fun m =>
          m.groupId == g && m.role == GroupRole.ADMIN) := by
        rw [hA]; exact List.mem_cons_self _ _
      have hmemB : b ∈ l.filter (fun m =>
          m.groupId == g && m.role == GroupRole.ADMIN) := by
        rw [hA]; exact List.mem_cons_of_mem _ (List.mem_cons_self _ _)
      obtain ⟨haL, haP⟩ := List.mem_filter.mp hmemA
      obtain ⟨hbL, hbP⟩ := List.mem_filter.mp hmemB
      simp only [Bool.and_eq_true, beq_iff_eq] at haP hbP
      have hnd2 : ((l.filter (fun m =>
          m.groupId == g && m.role == GroupRole.ADMIN)).map
            (fun m => (m.userId, m.groupId))).Nodup :=
        hnodup.sublist ((List.filter_sublist l).map _)
      have hne : a.userId ≠ b.userId := by
        intro hEq
        rw [hA] at hnd2
        simp only [List.map_cons, List.nodup_cons, List.mem_cons,
          not_or] at hnd2
        exact hnd2.1.1 (by rw [hEq, haP.1, hbP.1])
      have hpick : ∃ c, c ∈ l ∧ c.groupId = g ∧ c.role = GroupRole.ADMIN ∧
          c.userId ≠ target := by
        by_cases hat : a.userId = target
        · exact ⟨b, hbL, hbP.1, hbP.2, fun hbt => hne (hat.trans hbt.symm)⟩
        · exact ⟨a, haL, haP.1, haP.2, hat⟩
      obtain ⟨c, hcL, hcg, hcr, hct⟩ := hpick
      have hmem2 : c ∈ (l.filter (fun m =>
          !(m.userId == target && m.groupId == g))).filter
          (fun m => m.groupId == g && m.role == GroupRole.ADMIN) := by
        refine List.mem_filter.mpr ⟨List.mem_filter.mpr ⟨hcL, ?_⟩, ?_⟩
        · simp [hct]
        · simp [hcg, hcr]
      exact List.length_pos_of_mem hmem2

/-- C9: with the acting caller an ADMIN of the group and the target an
ADMIN member, removal fails with LAST_ADMIN and leaves the store untouched
when the group's ADMIN row count is exactly one; with at least two ADMIN
rows (and the store's (userId, groupId) uniqueness), removal succeeds and
the group still has at least one ADMIN row. -/
theorem removeMember_last_admin :
    (∀ (db : DB) (g target acting : Nat) (am tm : GroupMemberRec),
      findMembership db g acting = some am → am.role = .ADMIN →
      findMembership db g target = some tm → tm.role = .ADMIN →
      (db.groupMembers.filter (fun m =>
        m.groupId == g && m.role == GroupRole.ADMIN)).length = 1 →
      removeMember db g target acting = (.error lastAdminErr, db)) ∧
    (∀ (db : DB) (g target acting : Nat) (am tm : GroupMemberRec),
      (db.groupMembers.map (fun m => (m.userId, m.groupId))).Nodup →
      findMembership db g acting = some am → am.role = .ADMIN →
      findMembership db g target = some tm → tm.role = .ADMIN →
      2 ≤ (db.groupMembers.filter (fun m =>
        m.groupId == g && m.role == GroupRole.ADMIN)).length →
      (removeMember db g target acting).1 = .ok () ∧
      1 ≤ ((removeMember db g target acting).2.groupMembers.filter (fun m =>
        m.groupId == g && m.role == GroupRole.ADMIN)).length) := by
  constructor
  · intro db g target acting am tm hact hactrole htm htmrole hcount
    have hadm : assertGroupAdmin db g acting = .ok () := by
      unfold assertGroupAdmin
      rw [hact]
      simp [hactrole]
    unfold removeMember
    simp [hadm, htm, htmrole, hcount]
  · intro db g target acting am tm hnodup hact hactrole htm htmrole hcount
    have hadm : assertGroupAdmin db g acting = .ok () := by
      unfold assertGroupAdmin
      rw [hact]
      simp [hactrole]
    have hgt : ¬ (db.groupMembers.filter (fun m =>
        m.groupId == g && m.role == GroupRole.ADMIN)).length ≤ 1 := by
      omega
    unfold removeMember
    simp only [hadm, htm, htmrole, if_true, hgt, if_false]
    refine ⟨trivial, ?_⟩
    exact admins_remain db.groupMembers g target hnodup hcount

/-- C9 witness: removing the sole ADMIN of group 5 fails with LAST_ADMIN
and changes nothing; removing one of two ADMINs succeeds and an ADMIN
remains. -/
theorem removeMember_last_admin_witness :
    removeMember dbG1 5 1 1 = (.error lastAdminErr, dbG1) ∧
    (removeMember dbG2 5 2 1).1 = .ok () ∧
    1 ≤ ((removeMember dbG2 5 2 1).2.groupMembers.filter (fun m =>
      m.groupId == (5 : Nat) && m.role == GroupRole.ADMIN)).length := by
  refine ⟨removeMember_last_admin.1 dbG1 5 1 1 ⟨1, 5, .ADMIN⟩ ⟨1, 5, .ADMIN⟩
      rfl rfl rfl rfl rfl, ?_, ?_⟩
  · exact (removeMember_last_admin.2 dbG2 5 2 1 ⟨1, 5, .ADMIN⟩ ⟨2, 5, .ADMIN⟩
      (by decide) rfl rfl rfl rfl (by decide)).1
  · exact (removeMember_last_admin.2 dbG2 5 2 1 ⟨1, 5, .ADMIN⟩ ⟨2, 5, .ADMIN⟩
      (by decide) rfl rfl rfl rfl (by decide)).2

end TaskMgmt
